import Mathlib

/-!
Verification development for the interview scoring and question-generation
engine of `resumematching.py` (hire-ai-insights-dashboard).

The Python source is shallowly embedded: pure functions become Lean
functions, dict-based records become structures, Python `float`
arithmetic on scores is modelled with exact rationals (`ℚ`), Python's
`round` builtin (banker's rounding) and `int()` truncation are modelled
explicitly, and Python string operations (`strip`, `lower`, `in`,
`startswith`, `split`) are modelled character-by-character on ASCII
text.  Braces and apostrophes inside string literals are written with
`\x7b`, `\x7d` and `\x27` escapes.
-/

/-! ## Python numeric primitives -/

/-- Python's `round` builtin on a real value, modelled on `ℚ`:
round-half-to-even (banker's rounding). -/
def pyRound (q : ℚ) : ℤ :=
  let f : ℤ := ⌊q⌋
  let r : ℚ := q - f
  if r < 1/2 then f
  else if 1/2 < r then f + 1
  else if f % 2 = 0 then f else f + 1

/-- Python's `int()` truncation toward zero, modelled on `ℚ`. -/
def pyTrunc (q : ℚ) : ℤ :=
  if 0 ≤ q then ⌊q⌋ else -⌊-q⌋

/-- Python's `round(x, 2)` (round to two decimal places), modelled on `ℚ`. -/
def pyRound2 (q : ℚ) : ℚ :=
  (pyRound (q * 100) : ℚ) / 100

/-! ## Python string primitives -/

/-- Characters treated as whitespace by Python's `str.strip()`
(ASCII fragment). -/
def isPyWhitespace (c : Char) : Bool :=
  c = ' ' || c = '\t' || c = '\n' || c = '\r' || c = '\x0b' || c = '\x0c'

/-- Python `str.strip()` on ASCII text. -/
def pyStrip (s : String) : String :=
  String.mk (((s.toList.dropWhile isPyWhitespace).reverse.dropWhile isPyWhitespace).reverse)

/-- Python `str.lower()` on ASCII text. -/
def pyLower (s : String) : String :=
  String.mk (s.toList.map Char.toLower)

/-- `needle` starts the list `hay` (helper for substring tests). -/
def listStarts : List Char → List Char → Bool
  | _, [] => true
  | [], _ :: _ => false
  | a :: as, b :: bs => a = b && listStarts as bs

/-- Occurrence of `needle` anywhere in `hay` (helper for substring tests). -/
def listHas : List Char → List Char → Bool
  | [], needle => needle.isEmpty
  | hay@(_ :: t), needle => listStarts hay needle || listHas t needle

/-- Python's `needle in hay` substring test. -/
def strContains (hay needle : String) : Bool :=
  listHas hay.toList needle.toList

/-- Python's `hay.startswith(needle)`. -/
def pyStartsWith (hay needle : String) : Bool :=
  listStarts hay.toList needle.toList

/-- Python's `hay.startswith((p1, p2, ...))`: any of the prefixes. -/
def pyStartsWithAny (hay : String) (needles : List String) : Bool :=
  needles.any (fun n => pyStartsWith hay n)

/-- Everything after the first `:` in the character list
(Python `line.split(':', 1)[1]`). -/
def dropThroughColon : List Char → List Char
  | [] => []
  | c :: t => if c = ':' then t else dropThroughColon t

/-- Python `line.split(':', 1)[1]` as a string (caller checks `':' in line`). -/
def afterColon (s : String) : String :=
  String.mk (dropThroughColon s.toList)

/-- Python `':' in line`. -/
def hasColon (s : String) : Bool :=
  s.toList.any (fun c => c = ':')

/-! ## `InterviewQuestionGenerator.determine_difficulty_level`
(resumematching.py lines 1320-1336) -/

/-- `determine_difficulty_level(resume_score)`: maps a resume fit score to
the initial interview difficulty tier. -/
def determine_difficulty_level (resume_score : ℤ) : String :=
  if resume_score ≤ 60 then "easy"
  else if resume_score ≤ 70 then "medium"
  else "very_hard"

/-! ## `InterviewQuestionGenerator._distribute_questions`
(resumematching.py lines 1538-1641) -/

/-- The four question categories, in the declaration order the source
uses everywhere (screening, domain, behavioral, communication). -/
inductive QCategory where
  | screening
  | domain
  | behavioral
  | communication
deriving DecidableEq, Repr

/-- The result dict of `_distribute_questions`: a question count per
category.  Counts are naturals: the source never lets them go below 0. -/
structure QuestionDistribution where
  screening : ℕ
  domain : ℕ
  behavioral : ℕ
  communication : ℕ
deriving DecidableEq, Repr

/-- Field access by category. -/
def QuestionDistribution.get (d : QuestionDistribution) : QCategory → ℕ
  | .screening => d.screening
  | .domain => d.domain
  | .behavioral => d.behavioral
  | .communication => d.communication

/-- Total number of allocated questions. -/
def QuestionDistribution.sum (d : QuestionDistribution) : ℕ :=
  d.screening + d.domain + d.behavioral + d.communication

/-- One step of the reduction loop: `if category_name == c and c_questions > 0:
c_questions -= 1` (no effect when the count is already 0). -/
def QuestionDistribution.dec (d : QuestionDistribution) : QCategory → QuestionDistribution
  | .screening => if 0 < d.screening then { d with screening := d.screening - 1 } else d
  | .domain => if 0 < d.domain then { d with domain := d.domain - 1 } else d
  | .behavioral => if 0 < d.behavioral then { d with behavioral := d.behavioral - 1 } else d
  | .communication =>
      if 0 < d.communication then { d with communication := d.communication - 1 } else d

/-- One step of the addition loop: `c_questions += 1` (unconditional). -/
def QuestionDistribution.inc (d : QuestionDistribution) : QCategory → QuestionDistribution
  | .screening => { d with screening := d.screening + 1 }
  | .domain => { d with domain := d.domain + 1 }
  | .behavioral => { d with behavioral := d.behavioral + 1 }
  | .communication => { d with communication := d.communication + 1 }

/-- The caller-supplied evaluation-criteria percentages
(`evaluation_criteria.get('..._percentage', 0)`), non-negative integers. -/
structure EvaluationCriteria where
  screening_percentage : ℕ
  domain_percentage : ℕ
  behavioral_attitude_percentage : ℕ
  communication_percentage : ℕ
deriving DecidableEq, Repr

/-- `round(pct / 100 * total) if pct > 0 else 0`.  Python computes the
product in `float`; the embedding uses the exact rational value. -/
def roundedAllocation (pct total : ℕ) : ℕ :=
  if 0 < pct then (pyRound ((pct : ℚ) / 100 * total)).toNat else 0

/-- Stable insertion of one `(category, key)` pair into a list already
sorted by key in non-increasing order: the inserted element goes before
the first element whose key is not larger, so elements with equal keys
keep their original relative order (the behaviour of Python's stable
`list.sort(key=..., reverse=True)`). -/
def insertKeyDesc (x : QCategory × ℕ) : List (QCategory × ℕ) → List (QCategory × ℕ)
  | [] => [x]
  | y :: ys => if x.2 < y.2 then y :: insertKeyDesc x ys else x :: y :: ys

/-- Stable sort by key, descending (Python `sort(key=lambda x: x[1],
reverse=True)`). -/
def sortKeyDesc (l : List (QCategory × ℕ)) : List (QCategory × ℕ) :=
  l.foldr insertKeyDesc []

/-- `categories_to_reduce` before sorting: the categories with a positive
current count, paired with that count, in declaration order. -/
def reduceCandidates (d : QuestionDistribution) : List (QCategory × ℕ) :=
  (if 0 < d.screening then [(QCategory.screening, d.screening)] else []) ++
  (if 0 < d.domain then [(QCategory.domain, d.domain)] else []) ++
  (if 0 < d.behavioral then [(QCategory.behavioral, d.behavioral)] else []) ++
  (if 0 < d.communication then [(QCategory.communication, d.communication)] else [])

/-- `categories_to_add` before sorting: the categories with a positive
percentage, paired with that percentage, in declaration order. -/
def addCandidates (ec : EvaluationCriteria) : List (QCategory × ℕ) :=
  (if 0 < ec.screening_percentage then [(QCategory.screening, ec.screening_percentage)] else []) ++
  (if 0 < ec.domain_percentage then [(QCategory.domain, ec.domain_percentage)] else []) ++
  (if 0 < ec.behavioral_attitude_percentage then
    [(QCategory.behavioral, ec.behavioral_attitude_percentage)] else []) ++
  (if 0 < ec.communication_percentage then
    [(QCategory.communication, ec.communication_percentage)] else [])

/-- The reduction loop: `for i in range(excess): ...` picking
`categories_to_reduce[i % len(categories_to_reduce)]` and decrementing
that category if its current count is positive (no effect at all when
the candidate list is empty). -/
def reduceLoop (sorted : List (QCategory × ℕ)) (excess : ℕ)
    (d : QuestionDistribution) : QuestionDistribution :=
  (List.range excess).foldl
    (fun acc i =>
      match sorted.get? (i % sorted.length) with
      | some p => acc.dec p.1
      | none => acc)
    d

/-- The addition loop: `for i in range(remaining): ...` picking
`categories_to_add[i % len(categories_to_add)]` and incrementing that
category unconditionally. -/
def addLoop (sorted : List (QCategory × ℕ)) (remaining : ℕ)
    (d : QuestionDistribution) : QuestionDistribution :=
  (List.range remaining).foldl
    (fun acc i =>
      match sorted.get? (i % sorted.length) with
      | some p => acc.inc p.1
      | none => acc)
    d

/-- `_distribute_questions(evaluation_criteria, total_questions)`:
per-category rounding, all-zero edge case, then the
remove-or-add reconciliation to hit the exact total. -/
def distribute_questions (ec : EvaluationCriteria) (total_questions : ℕ) :
    QuestionDistribution :=
  let screening_questions := roundedAllocation ec.screening_percentage total_questions
  let domain_questions := roundedAllocation ec.domain_percentage total_questions
  let behavioral_questions := roundedAllocation ec.behavioral_attitude_percentage total_questions
  let communication_questions := roundedAllocation ec.communication_percentage total_questions
  let total_allocated :=
    screening_questions + domain_questions + behavioral_questions + communication_questions
  -- edge case: all percentages 0 or everything rounded to 0
  let d0 : QuestionDistribution :=
    if total_allocated = 0 then
      (if 0 < ec.screening_percentage then ⟨total_questions, 0, 0, 0⟩
       else if 0 < ec.domain_percentage then ⟨0, total_questions, 0, 0⟩
       else if 0 < ec.behavioral_attitude_percentage then ⟨0, 0, total_questions, 0⟩
       else ⟨total_questions, 0, 0, 0⟩)
    else
      ⟨screening_questions, domain_questions, behavioral_questions, communication_questions⟩
  let allocated := if total_allocated = 0 then total_questions else total_allocated
  if total_questions < allocated then
    reduceLoop (sortKeyDesc (reduceCandidates d0)) (allocated - total_questions) d0
  else if allocated < total_questions then
    addLoop (sortKeyDesc (addCandidates ec)) (total_questions - allocated) d0
  else
    d0

/-! ## `InterviewAnalyzer._parse_transcript_qa_pairs`
(resumematching.py lines 587-625) -/

/-- One extracted question/answer pair. -/
structure QAPair where
  question : String
  answer : String
deriving DecidableEq, Repr

/-- The question-line markers `('AI:', 'AGENT:', 'INTERVIEWER:')`. -/
def questionLineMarkers : List String :=
  ["AI:", "AGENT:", "INTERVIEWER:"]

/-- The answer-line markers `('USER:', 'CANDIDATE:', 'YOU:')`. -/
def answerLineMarkers : List String :=
  ["USER:", "CANDIDATE:", "YOU:"]

/-- Parser state: `current_question` (`none` before the first question
line; note Python treats both `None` and the empty string as falsy),
`current_answer` (accumulated answer fragments), and the pairs emitted
so far. -/
structure ParseState where
  currentQuestion : Option String
  currentAnswer : List String
  pairs : List QAPair
deriving Repr

/-- Python truthiness of `current_question` (`None` and `""` are falsy). -/
def qTruthy : Option String → Bool
  | none => false
  | some s => s ≠ ""

/-- `' '.join(current_answer).strip() if current_answer else ""`. -/
def joinAnswer (l : List String) : String :=
  if l = [] then "" else pyStrip (String.intercalate " " l)

/-- Flush the pending pair if `current_question` is truthy
(`if current_question: qa_pairs.append(...)`). -/
def flushPending (s : ParseState) : List QAPair :=
  if qTruthy s.currentQuestion then
    s.pairs ++ [⟨s.currentQuestion.getD "", joinAnswer s.currentAnswer⟩]
  else
    s.pairs

/-- Extract the question text of a raw line
(`line.split(':', 1)[1].strip() if ':' in line else line`). -/
def questionTextOf (line : String) : String :=
  if hasColon line then pyStrip (afterColon line) else line

/-- Process one raw transcript line. -/
def parseLine (s : ParseState) (rawLine : String) : ParseState :=
  let line := pyStrip rawLine
  if line = "" then s
  else if pyStartsWithAny line questionLineMarkers then
    { currentQuestion := some (questionTextOf line)
      currentAnswer := []
      pairs := flushPending s }
  else if pyStartsWithAny line answerLineMarkers then
    { s with currentAnswer := s.currentAnswer ++ [questionTextOf line] }
  else if s.currentAnswer ≠ [] then
    { s with currentAnswer := s.currentAnswer ++ [line] }
  else
    s

/-- Parse a list of transcript lines (the body of
`_parse_transcript_qa_pairs` after `transcript.split('\n')`),
flushing the last pending pair at end of input. -/
def parseTranscriptLines (lines : List String) : List QAPair :=
  flushPending (lines.foldl parseLine ⟨none, [], []⟩)

/-- Python `transcript.split('\n')` (character-level model: splitting
on the newline separator, keeping empty segments). -/
def splitLines (transcript : String) : List String :=
  (transcript.toList.splitOn '\n').map String.mk

/-- `_parse_transcript_qa_pairs(transcript)`. -/
def parse_transcript_qa_pairs (transcript : String) : List QAPair :=
  parseTranscriptLines (splitLines transcript)

/-- The question text a raw line contributes, if any: the line must
strip to a non-blank line starting with a question marker, and (for a
pair to ever be emitted for it) the text after the first colon must be
non-empty.  Used to state which lines yield pairs. -/
def emittedQuestionOf (rawLine : String) : Option String :=
  let line := pyStrip rawLine
  if line ≠ "" && pyStartsWithAny line questionLineMarkers &&
      questionTextOf line ≠ "" then
    some (questionTextOf line)
  else
    none

/-- A raw line strips to a non-blank question-marker line (every such
line is what the claim calls a question line). -/
def isQuestionLine (rawLine : String) : Bool :=
  pyStartsWithAny (pyStrip rawLine) questionLineMarkers

/-- A raw line strips to an answer-marker line. -/
def isAnswerLine (rawLine : String) : Bool :=
  pyStartsWithAny (pyStrip rawLine) answerLineMarkers

/-! ## `InterviewAnalyzer` classification predicates
(resumematching.py lines 627-700) -/

/-- `greeting_patterns` of `_is_greeting_question`. -/
def greetingPatterns : List String :=
  ["hello", "welcome", "i\x27m excited to learn", "are you ready to begin",
   "ready to start", "shall we begin", "let\x27s get started",
   "nice to meet you", "good morning", "good afternoon", "good evening",
   "how are you today", "thank you for joining"]

/-- `_is_greeting_question(question)`. -/
def is_greeting_question (question : String) : Bool :=
  greetingPatterns.any (fun p => strContains (pyLower question) p)

/-- `followup_patterns` of `_is_followup_question`. -/
def followupPatterns : List String :=
  ["can you elaborate", "could you elaborate", "please elaborate",
   "tell me more", "can you explain more", "give an example",
   "provide an example", "can you give me an example",
   "could you provide more details", "can you be more specific",
   "anything else", "what else", "continue", "go on", "please continue"]

/-- `_is_followup_question(question)`. -/
def is_followup_question (question : String) : Bool :=
  followupPatterns.any (fun p => strContains (pyLower question) p)

/-- `skip_patterns` of `_is_skipped_answer`. -/
def skipPatterns : List String :=
  ["i don\x27t know", "i dont know", "not sure", "can\x27t answer",
   "cannot answer", "skip", "pass", "no idea", "i\x27m not familiar",
   "im not familiar", "i haven\x27t", "i havent", "unable to answer"]

/-- `_is_skipped_answer(answer)`: empty or whitespace-only answers, or
answers containing a skip-marker phrase. -/
def is_skipped_answer (answer : String) : Bool :=
  if answer = "" || pyStrip answer = "" then true
  else skipPatterns.any (fun p => strContains (pyStrip (pyLower answer)) p)

/-- `_get_difficulty_multiplier(difficulty)`: the fixed lookup
`{easy: 1.0, medium: 1.2, hard: 1.5, very_hard: 1.5}` with default 1.0
(Python floats modelled as exact rationals). -/
def get_difficulty_multiplier (difficulty : String) : ℚ :=
  let d := pyLower difficulty
  if d = "easy" then 1
  else if d = "medium" then 6/5
  else if d = "hard" then 3/2
  else if d = "very_hard" then 3/2
  else 1

/-! ## `InterviewAnalyzer.analyse` weighting pass
(resumematching.py lines 824-972)

The pass runs on the decoded LLM rubric response
(`analysis["question_scores"]["questions"]`) when the response decoded
and a non-empty `interview_questions` list was supplied.  Scores are
modelled as exact rationals.  Narrative-only dict fields the pass never
reads (`scoring_rationale`, communication analysis, ...) are omitted. -/

/-- One decoded entry of `question_scores.questions`.  `score` and
`is_domain_question` model `q.get("score", 0)` / `q.get(..., False)`:
`none` is an absent key.  The decoded `is_followup_question` /
`is_initial_question` values are carried but never read: the pass
overwrites both before any use. -/
structure LLMQuestion where
  question : String
  answer : String
  score : Option ℚ
  is_domain_question : Option Bool
  is_followup_question : Option Bool
  is_initial_question : Option Bool
deriving DecidableEq, Repr

/-- A question dict after the weighting pass: the decoded fields plus
the keys the pass writes.  `Option` marks keys that may be absent. -/
structure ScoredQuestion where
  question : String
  answer : String
  score : Option ℚ
  is_domain_question : Option Bool
  is_greeting : Bool
  is_followup_question : Bool
  is_initial_question : Bool
  excluded_from_scoring : Bool
  exclusion_reason : Option String
  replaces_main_question : Bool
  difficulty : Option String
  difficulty_multiplier : Option ℚ
  weighted_score : Option ℚ
  is_abandoned : Bool
deriving DecidableEq, Repr

/-- Accumulator state of the scoring loop. -/
structure WeightState where
  processed : List ScoredQuestion
  raw_score : ℚ
  max_score : ℚ
  domain_raw_score : ℚ
  domain_max_score : ℚ
  last_main_question_index : ℤ
  followup_counted_for_main : List ℤ
deriving Repr

/-- Dict-style insert-or-update used to model
`question_difficulty_map[key] = value` (first insertion fixes the
position, later assignments update the value in place). -/
def dictUpsert (m : List (String × String)) (k v : String) : List (String × String) :=
  if m.any (fun p => p.1 = k) then m.map (fun p => if p.1 = k then (k, v) else p)
  else m ++ [(k, v)]

/-- One entry of the `interview_questions` argument; both keys may be
absent (`if "question" in iq and "difficulty" in iq`). -/
structure InterviewQuestion where
  question : Option String
  difficulty : Option String
deriving DecidableEq, Repr

/-- Build `question_difficulty_map` from `interview_questions`. -/
def buildDifficultyMap (iqs : List InterviewQuestion) : List (String × String) :=
  iqs.foldl
    (fun m iq =>
      match iq.question, iq.difficulty with
      | some q, some diff => dictUpsert m (pyLower q) diff
      | _, _ => m)
    []

/-- The fuzzy difficulty lookup: first map entry whose key and the
lowercased question text contain one another, default `"medium"`. -/
def lookupDifficulty (qmap : List (String × String)) (question_lower : String) : String :=
  match qmap.find? (fun p => strContains question_lower p.1 || strContains p.1 question_lower) with
  | some p => p.2
  | none => "medium"

/-- In-place update of one list element (`questions_data[i] = ...`),
no effect when the index is out of range. -/
def listModify : List α → ℕ → (α → α) → List α
  | [], _, _ => []
  | x :: xs, 0, f => f x :: xs
  | x :: xs, n + 1, f => x :: listModify xs n f

/-- The retroactive mutation of a replaced main question. -/
def markReplacedMain (m : ScoredQuestion) : ScoredQuestion :=
  { m with excluded_from_scoring := true,
           exclusion_reason := some "Score replaced by follow-up question" }

/-- The scoring tail shared by every non-excluded question: fuzzy
difficulty lookup, follow-up difficulty inheritance from the already
processed main question, weighting, and accumulation into the four
running totals. -/
def scoreTail (qmap : List (String × String)) (st : WeightState)
    (entry : ScoredQuestion) (is_followup : Bool) (lastMain : ℤ) : WeightState :=
  let question_lower := pyLower entry.question
  let difficulty0 := lookupDifficulty qmap question_lower
  let difficulty :=
    if is_followup && decide (0 ≤ lastMain) then
      match st.processed.get? lastMain.toNat with
      | some mainq =>
          match mainq.difficulty with
          | some dd => dd
          | none => difficulty0
      | none => difficulty0
    else difficulty0
  let multiplier := get_difficulty_multiplier difficulty
  let score := entry.score.getD 0
  let weighted_score := score * multiplier
  let entry' := { entry with
    difficulty := some difficulty,
    difficulty_multiplier := some multiplier,
    weighted_score := some weighted_score }
  let isDomain := entry.is_domain_question.getD false
  { st with
    processed := st.processed ++ [entry'],
    raw_score := st.raw_score + weighted_score,
    max_score := st.max_score + 5 * multiplier,
    domain_raw_score :=
      if isDomain then st.domain_raw_score + weighted_score else st.domain_raw_score,
    domain_max_score :=
      if isDomain then st.domain_max_score + 5 * multiplier else st.domain_max_score }

/-- Process question `i` of the decoded list (one iteration of
`for i, q in enumerate(questions_data)`). -/
def processQuestion (qmap : List (String × String)) (st : WeightState)
    (i : ℕ) (q : LLMQuestion) : WeightState :=
  let is_greeting := is_greeting_question q.question
  let is_followup := if i = 0 then false else is_followup_question q.question
  let base : ScoredQuestion :=
    { question := q.question, answer := q.answer, score := q.score,
      is_domain_question := q.is_domain_question,
      is_greeting := is_greeting,
      is_followup_question := is_followup,
      is_initial_question := decide (i = 0),
      excluded_from_scoring := false,
      exclusion_reason := none,
      replaces_main_question := false,
      difficulty := none,
      difficulty_multiplier := none,
      weighted_score := none,
      is_abandoned := false }
  if is_greeting then
    { st with processed := st.processed ++
        [{ base with
            excluded_from_scoring := true
            exclusion_reason := some "Greeting/welcome message, not an interview question" }] }
  else
    let lastMain : ℤ := if is_followup then st.last_main_question_index else (i : ℤ)
    let st1 := { st with last_main_question_index := lastMain }
    if is_followup && decide (0 ≤ lastMain) then
      if st1.followup_counted_for_main.contains lastMain then
        { st1 with processed := st1.processed ++
            [{ base with
                excluded_from_scoring := true
                exclusion_reason := some "Already scored one follow-up for this main question" }] }
      else
        let st2 := { st1 with
          processed := listModify st1.processed lastMain.toNat markReplacedMain,
          followup_counted_for_main := st1.followup_counted_for_main ++ [lastMain] }
        scoreTail qmap st2 { base with replaces_main_question := true } is_followup lastMain
    else
      scoreTail qmap st1 base is_followup lastMain

/-- The classification/accumulation loop over all decoded questions. -/
def classifyQuestions (qmap : List (String × String))
    (questions : List LLMQuestion) : WeightState :=
  questions.enum.foldl (fun st p => processQuestion qmap st p.1 p.2)
    ⟨[], 0, 0, 0, 0, -1, []⟩

/-- `len([q for q in questions_data if not q.get("excluded_from_scoring",
False)])`. -/
def scorableCount (l : List ScoredQuestion) : ℕ :=
  (l.filter (fun q => !q.excluded_from_scoring)).length

/-- `total_expected_questions = 7`. -/
def totalExpectedQuestions : ℕ := 7

/-- The synthesized placeholder for an abandoned question slot
(`idx` is the 1-based slot number interpolated into the text). -/
def abandonedEntry (idx : ℕ) : ScoredQuestion :=
  { question := "[Question " ++ toString idx ++ " - Not Asked Due to Interview Ending]",
    answer := "[Interview Ended]",
    score := some 0,
    is_domain_question := some true,
    is_greeting := false,
    is_followup_question := false,
    is_initial_question := false,
    excluded_from_scoring := false,
    exclusion_reason := none,
    replaces_main_question := false,
    difficulty := some "medium",
    difficulty_multiplier := some (6/5),
    weighted_score := some 0,
    is_abandoned := true }

/-- Result of the abandoned-interview compensation step. -/
structure CompensationResult where
  questionsData : List ScoredQuestion
  max_score : ℚ
  domain_max_score : ℚ
  questions_asked : ℕ
deriving Repr

/-- The abandoned-interview compensation (lines 918-946): count the
scorable questions, then pad `max_score`, `domain_max_score` and the
question list with medium-difficulty placeholders up to 7 expected
slots.  The loop adds `5 * 1.2` to `domain_max_score` once per slot;
that is accumulated here as one product. -/
def compensateAbandoned (questionsData : List ScoredQuestion)
    (max_score domain_max_score : ℚ) : CompensationResult :=
  let questions_asked := scorableCount questionsData
  if questions_asked < totalExpectedQuestions then
    let remaining := totalExpectedQuestions - questions_asked
    { questionsData := questionsData ++
        (List.range remaining).map (fun i => abandonedEntry (questions_asked + i + 1)),
      max_score := max_score + remaining * 5 * (6/5),
      domain_max_score := domain_max_score + remaining * (5 * (6/5)),
      questions_asked := questions_asked }
  else
    { questionsData := questionsData,
      max_score := max_score,
      domain_max_score := domain_max_score,
      questions_asked := questions_asked }

/-- The score-related outputs the pass stores into `analysis`. -/
structure WeightingResult where
  questionsData : List ScoredQuestion
  raw_domain_score : ℚ
  max_domain_score : ℚ
  normalized_domain_score : ℚ
  overall_score : ℤ
  domain_score : ℤ
  scorable_questions_count : ℕ
  raw_score : ℚ
  max_score : ℚ
  normalized_score : ℚ
  communication_score : ℚ
deriving DecidableEq, Repr

/-- The post-compensation normalized domain score
(`domain_raw_score / domain_max_score * 100`, 0 on a zero
denominator), before the 2-decimal rounding applied for storage. -/
def normalizedDomainOf (iqs : List InterviewQuestion)
    (questions : List LLMQuestion) : ℚ :=
  let st := classifyQuestions (buildDifficultyMap iqs) questions
  let comp := compensateAbandoned st.processed st.max_score st.domain_max_score
  if 0 < comp.domain_max_score then st.domain_raw_score / comp.domain_max_score * 100 else 0

/-- The full weighting pass: classification/accumulation, abandoned
compensation, normalization and the stored score fields.
`communication_score` models `analysis.get("communication_score", 50)`;
`overall_score` is `int(normalized_domain_score * 0.8 +
communication_score * 0.2)` with the Python float weights `0.8` / `0.2`
taken at their exact rational values. -/
def analyseWeighting (iqs : List InterviewQuestion)
    (questions : List LLMQuestion)
    (communication_score : Option ℚ) : WeightingResult :=
  let st := classifyQuestions (buildDifficultyMap iqs) questions
  let comp := compensateAbandoned st.processed st.max_score st.domain_max_score
  let normalized_score :=
    if 0 < comp.max_score then st.raw_score / comp.max_score * 100 else 0
  let normalized_domain :=
    if 0 < comp.domain_max_score then st.domain_raw_score / comp.domain_max_score * 100 else 0
  let comm := communication_score.getD 50
  { questionsData := comp.questionsData,
    raw_domain_score := pyRound2 st.domain_raw_score,
    max_domain_score := pyRound2 comp.domain_max_score,
    normalized_domain_score := pyRound2 normalized_domain,
    overall_score := pyTrunc (normalized_domain * (4/5) + comm * (1/5)),
    domain_score := pyTrunc normalized_domain,
    scorable_questions_count := comp.questions_asked,
    raw_score := pyRound2 st.raw_score,
    max_score := pyRound2 comp.max_score,
    normalized_score := pyRound2 normalized_score,
    communication_score := comm }

/-! ## `ResumeAnalyzer._repair_json` (resumematching.py lines 2122-2220)

Each `re.sub` pass is modelled as a character-level scanner with
Python's semantics: leftmost match, non-overlapping, scanning resumes
after the replaced span.  The patterns involved (`[^"]*`, `\s*`,
identifier classes followed by a character outside the class) never
backtrack, so the scanners are exact.  The `try/except` wrapper of the
source is dead for these pure string operations. -/

/-- Python `str.endswith(suffix)`. -/
def pyEndsWith (hay needle : String) : Bool :=
  listStarts hay.toList.reverse needle.toList.reverse

/-- Pass 1, `re.sub(r',(\s*[}\]])', r'\1', s)`: drop a comma standing
before optional whitespace and a closing brace/bracket.  The fuel
argument (instantiated with the input length, which every recursive
call strictly decreases below) only serves structural termination. -/
def subTrailingCommaAux : ℕ → List Char → List Char
  | 0, l => l
  | _ + 1, [] => []
  | fuel + 1, c :: rest =>
    if c = ',' then
      let ws := rest.takeWhile isPyWhitespace
      match rest.drop ws.length with
      | b :: rest3 =>
          if b = '\x7d' || b = ']' then ws ++ b :: subTrailingCommaAux fuel rest3
          else ',' :: subTrailingCommaAux fuel rest
      | [] => ',' :: subTrailingCommaAux fuel rest
    else c :: subTrailingCommaAux fuel rest

/-- Pass 1 at adequate fuel. -/
def subTrailingComma (l : List Char) : List Char :=
  subTrailingCommaAux l.length l

/-- Pass 2, `re.sub(r'"([^"]*)"([^"]*)"([^"]*)"', r'"\1\\"2\\"\3"', s)`:
the "unescaped quote fix".  Note the replacement template drops group 2
and inserts the literal characters `\"2\"` between groups 1 and 3. -/
def subQuoteFixAux : ℕ → List Char → List Char
  | 0, l => l
  | _ + 1, [] => []
  | fuel + 1, c :: rest =>
    if c = '"' then
      let g1 := rest.takeWhile (fun x => x ≠ '"')
      match rest.drop g1.length with
      | '"' :: r2 =>
        let g2 := r2.takeWhile (fun x => x ≠ '"')
        match r2.drop g2.length with
        | '"' :: r4 =>
          let g3 := r4.takeWhile (fun x => x ≠ '"')
          match r4.drop g3.length with
          | '"' :: r6 =>
              '"' :: g1 ++ '\\' :: '"' :: '2' :: '\\' :: '"' :: g3 ++ '"' :: subQuoteFixAux fuel r6
          | _ => c :: subQuoteFixAux fuel rest
        | _ => c :: subQuoteFixAux fuel rest
      | _ => c :: subQuoteFixAux fuel rest
    else c :: subQuoteFixAux fuel rest

/-- Pass 2 at adequate fuel. -/
def subQuoteFix (l : List Char) : List Char :=
  subQuoteFixAux l.length l

/-- `s.rfind('"')` as an integer index, `-1` when absent. -/
def lastQuoteIdx (l : List Char) : ℤ :=
  l.foldl (fun (acc : ℤ × ℕ) c =>
      (if c = '"' then (acc.2 : ℤ) else acc.1, acc.2 + 1)) (-1, 0) |>.1

/-- Step 3: if the quote count is odd, close the presumed truncated
trailing string: append the remainder of the line after the last quote
plus a closing quote, then keep only the first line if that produced
more than one. -/
def fixOddQuote (l : List Char) : List Char :=
  if (l.count '"') % 2 ≠ 0 then
    let lqi := lastQuoteIdx l
    if 0 < lqi then
      let after := l.drop (lqi.toNat + 1)
      let afterStr := pyStrip (String.mk after)
      if !pyEndsWith afterStr "\"" && !pyEndsWith afterStr "\"\x7d" then
        let repaired := l.take (lqi.toNat + 1) ++
          (pyStrip (String.mk (after.takeWhile (fun c => c ≠ '\n')))).toList ++ ['"']
        let lines := (String.mk repaired).splitOn "\n"
        if 1 < lines.length then (lines.getD 0 "").toList else repaired
      else l
    else l
  else l

/-- Step 4: append missing closing braces, then missing closing
brackets (the two `while` loops). -/
def appendClosers (l : List Char) : List Char :=
  l ++ List.replicate (l.count '\x7b' - l.count '\x7d') '\x7d' ++
    List.replicate (l.count '[' - l.count ']') ']'

/-- Step 5 scan: the index of the last `}` at which the running brace
counter returns to exactly zero, `-1` when never. -/
def lastBalancedPos (l : List Char) : ℤ :=
  (l.foldl
    (fun (acc : ℤ × ℤ × ℕ) c =>
      let lastPos := acc.1
      let count := acc.2.1
      let idx := acc.2.2
      if c = '\x7b' then (lastPos, count + 1, idx + 1)
      else if c = '\x7d' then
        (if count - 1 = 0 then ((idx : ℤ), count - 1, idx + 1) else (lastPos, count - 1, idx + 1))
      else (lastPos, count, idx + 1))
    (-1, 0, 0)).1

/-- Step 5: drop trailing text after the last complete JSON object
(only when that position is neither at the start nor already last). -/
def truncateAfterLastBalanced (l : List Char) : List Char :=
  let pos := lastBalancedPos l
  if 0 < pos ∧ pos < (l.length : ℤ) - 1 then l.take (pos.toNat + 1) else l

/-- Identifier head class `[a-zA-Z_]`. -/
def isIdentHead (c : Char) : Bool :=
  ('a' ≤ c && c ≤ 'z') || ('A' ≤ c && c ≤ 'Z') || c = '_'

/-- Identifier tail class `[a-zA-Z0-9_]`. -/
def isIdentTail (c : Char) : Bool :=
  isIdentHead c || ('0' ≤ c && c ≤ '9')

/-- Pass 6, `re.sub(r'"\s*"\s*([a-zA-Z_][a-zA-Z0-9_]*)":', r'", "\1":', s)`:
insert a comma between adjacent string values and a following key. -/
def subMissingCommaQuotesAux : ℕ → List Char → List Char
  | 0, l => l
  | _ + 1, [] => []
  | fuel + 1, c :: rest =>
    if c = '"' then
      let ws1 := rest.takeWhile isPyWhitespace
      match rest.drop ws1.length with
      | '"' :: r2 =>
        let ws2 := r2.takeWhile isPyWhitespace
        let r3 := r2.drop ws2.length
        match r3 with
        | h :: r4 =>
          if isIdentHead h then
            let tl := r4.takeWhile isIdentTail
            match r4.drop tl.length with
            | '"' :: ':' :: r5 =>
                '"' :: ',' :: ' ' :: '"' :: h :: tl ++ '"' :: ':' :: subMissingCommaQuotesAux fuel r5
            | _ => c :: subMissingCommaQuotesAux fuel rest
          else c :: subMissingCommaQuotesAux fuel rest
        | [] => c :: subMissingCommaQuotesAux fuel rest
      | _ => c :: subMissingCommaQuotesAux fuel rest
    else c :: subMissingCommaQuotesAux fuel rest

/-- Pass 6 at adequate fuel. -/
def subMissingCommaQuotes (l : List Char) : List Char :=
  subMissingCommaQuotesAux l.length l

/-- Pass 7, `re.sub(r'X\s*"([^"]+)":', r'X, "\1":', s)` for `X` one of
`}` / `]`: insert a comma after a closed object/array followed by a
key. -/
def subMissingCommaAfterAux (x : Char) : ℕ → List Char → List Char
  | 0, l => l
  | _ + 1, [] => []
  | fuel + 1, c :: rest =>
    if c = x then
      let ws := rest.takeWhile isPyWhitespace
      match rest.drop ws.length with
      | '"' :: r2 =>
        let g1 := r2.takeWhile (fun ch => ch ≠ '"')
        if g1 = [] then c :: subMissingCommaAfterAux x fuel rest
        else
          match r2.drop g1.length with
          | '"' :: ':' :: r3 =>
              x :: ',' :: ' ' :: '"' :: g1 ++ '"' :: ':' :: subMissingCommaAfterAux x fuel r3
          | _ => c :: subMissingCommaAfterAux x fuel rest
      | _ => c :: subMissingCommaAfterAux x fuel rest
    else c :: subMissingCommaAfterAux x fuel rest

/-- Pass 7 at adequate fuel. -/
def subMissingCommaAfter (x : Char) (l : List Char) : List Char :=
  subMissingCommaAfterAux x l.length l

/-- The markdown-fence trim at the top of `_repair_json`: keep the
lines from the first line whose strip starts with `{` (default 0) to
the last line whose strip ends with `}` (default the last line). -/
def fenceTrim (s : String) : String :=
  let lines := s.splitOn "\n"
  let startIdx := (lines.findIdx? (fun ln => pyStartsWith (pyStrip ln) "\x7b")).getD 0
  let endIdx :=
    match (lines.reverse.findIdx? (fun ln => pyEndsWith (pyStrip ln) "\x7d")) with
    | some j => lines.length - 1 - j
    | none => lines.length - 1
  String.intercalate "\n" ((lines.take (endIdx + 1)).drop startIdx)

/-- `_repair_json(json_str)`: the full repair pipeline. -/
def repair_json (json_str : String) : String :=
  let repaired := pyStrip json_str
  let repaired := if pyStartsWith repaired "```" then fenceTrim repaired else repaired
  let repaired := String.mk (subTrailingComma repaired.toList)
  let repaired := String.mk (subQuoteFix repaired.toList)
  let repaired := String.mk (fixOddQuote repaired.toList)
  let repaired := String.mk (appendClosers repaired.toList)
  let repaired := String.mk (truncateAfterLastBalanced repaired.toList)
  let repaired := String.mk (subMissingCommaQuotes repaired.toList)
  let repaired := String.mk (subMissingCommaAfter '\x7d' repaired.toList)
  let repaired := String.mk (subMissingCommaAfter ']' repaired.toList)
  repaired

/-! ## A strict JSON reader (to state what repaired text parses to).

Covers objects, arrays, strings with standard escapes, and integers:
enough to decide what `json.loads` yields on the texts of the
round-trip claim.  Trailing commas are rejected, as `json.loads`
rejects them. -/

/-- JSON values (integer numerals suffice here). -/
inductive Json where
  | num (n : ℤ)
  | str (s : String)
  | arr (elems : List Json)
  | obj (members : List (String × Json))
deriving Repr

/-- The top-level key list of a JSON object (used to tell two parsed
objects apart). -/
def Json.topKeys : Json → List String
  | .obj ms => ms.map Prod.fst
  | _ => []

/-- Skip JSON whitespace. -/
def skipJsonWs (l : List Char) : List Char :=
  l.dropWhile isPyWhitespace

/-- Read a string body after the opening quote, handling the standard
escapes. -/
def parseJsonString : List Char → Option (String × List Char)
  | [] => none
  | '"' :: rest => some ("", rest)
  | '\\' :: e :: rest => do
      let c ←
        if e = '"' then some '"'
        else if e = '\\' then some '\\'
        else if e = '/' then some '/'
        else if e = 'n' then some '\n'
        else if e = 't' then some '\t'
        else if e = 'r' then some '\r'
        else none
      let (s, r) ← parseJsonString rest
      some (String.mk (c :: s.toList), r)
  | '\\' :: [] => none
  | c :: rest => do
      let (s, r) ← parseJsonString rest
      some (String.mk (c :: s.toList), r)

/-- Digits to a natural numeral. -/
def digitsToNat (ds : List Char) : ℕ :=
  ds.foldl (fun n c => n * 10 + (c.toNat - '0'.toNat)) 0

/-- Read an optionally signed integer numeral. -/
def parseJsonInt (l : List Char) : Option (Json × List Char) :=
  match l with
  | '-' :: rest =>
      let ds := rest.takeWhile Char.isDigit
      if ds = [] then none
      else some (.num (-(digitsToNat ds : ℤ)), rest.drop ds.length)
  | _ =>
      let ds := l.takeWhile Char.isDigit
      if ds = [] then none
      else some (.num (digitsToNat ds), l.drop ds.length)

mutual

/-- Read one JSON value. -/
def parseJsonValue : ℕ → List Char → Option (Json × List Char)
  | 0, _ => none
  | f + 1, l =>
    match skipJsonWs l with
    | '\x7b' :: rest =>
        (match skipJsonWs rest with
         | '\x7d' :: r2 => some (.obj [], r2)
         | _ => do
             let (ms, r2) ← parseJsonMembers f rest
             some (.obj ms, r2))
    | '[' :: rest =>
        (match skipJsonWs rest with
         | ']' :: r2 => some (.arr [], r2)
         | _ => do
             let (es, r2) ← parseJsonElems f rest
             some (.arr es, r2))
    | '"' :: rest => do
        let (s, r2) ← parseJsonString rest
        some (.str s, r2)
    | c :: rest =>
        if c.isDigit || c = '-' then parseJsonInt (c :: rest) else none
    | [] => none

/-- Read `"key": value` members up to the closing brace. -/
def parseJsonMembers : ℕ → List Char → Option (List (String × Json) × List Char)
  | 0, _ => none
  | f + 1, l =>
    match skipJsonWs l with
    | '"' :: rest => do
        let (k, r1) ← parseJsonString rest
        match skipJsonWs r1 with
        | ':' :: r2 => do
            let (v, r3) ← parseJsonValue f r2
            match skipJsonWs r3 with
            | ',' :: r4 => do
                let (ms, r5) ← parseJsonMembers f r4
                some ((k, v) :: ms, r5)
            | '\x7d' :: r4 => some ([(k, v)], r4)
            | _ => none
        | _ => none
    | _ => none

/-- Read array elements up to the closing bracket. -/
def parseJsonElems : ℕ → List Char → Option (List Json × List Char)
  | 0, _ => none
  | f + 1, l => do
      let (v, r1) ← parseJsonValue f l
      match skipJsonWs r1 with
      | ',' :: r2 => do
          let (es, r3) ← parseJsonElems f r2
          some (v :: es, r3)
      | ']' :: r2 => some ([v], r2)
      | _ => none

end

/-- Parse a whole JSON document (the model of `json.loads` on the
fragment above; `none` is a decode error). -/
def jsonParse (s : String) : Option Json :=
  match parseJsonValue (s.length + 1) s.toList with
  | some (v, rest) => if skipJsonWs rest = [] then some v else none
  | none => none

/-! ## `InterviewQuestionGenerator._generate_fallback_questions`
(resumematching.py lines 1829-2000) -/

/-- Python `str.upper()` on ASCII text. -/
def pyUpper (s : String) : String :=
  String.mk (s.toList.map Char.toUpper)

/-- One generated question dict. -/
structure GeneratedQuestion where
  id : ℕ
  category : String
  question : String
  focus_area : String
  expected_depth : String
deriving DecidableEq, Repr

/-- The dict `_generate_fallback_questions` returns. -/
structure FallbackOutput where
  questions : List GeneratedQuestion
  interview_focus : String
  success_criteria : String
  total_questions : ℕ
  estimated_duration : ℕ
deriving DecidableEq, Repr

/-- The `'easy'` question bank (`candidate_type` is interpolated into
the domain questions); `none` for an unknown category key. -/
def easyBank (ct : String) (category : String) : Option (List String) :=
  if category = "screening" then some
    ["Can you tell me about your background and why you\x27re interested in this role?",
     "What experience do you have that\x27s relevant to this position?",
     "What do you know about this role and our company?",
     "Tell me about your education and training.",
     "How did you hear about this position?",
     "What are you looking for in your next role?",
     "What interests you about this field?"]
  else if category = "domain" then some
    ["What " ++ ct ++ " experience do you have?",
     "Can you tell me about the " ++ ct ++ " tools you\x27ve used?",
     "Describe a " ++ ct ++ " project you worked on.",
     "What " ++ ct ++ " skills would you like to develop further?",
     "How do you approach basic " ++ ct ++ " tasks?",
     "What " ++ ct ++ " concepts are you familiar with?",
     "Tell me about your " ++ ct ++ " learning journey."]
  else if category = "behavioral" then some
    ["Tell me about a time you worked well in a team.",
     "How do you handle feedback?",
     "Describe a time you learned something new.",
     "How do you manage your time and priorities?",
     "Tell me about a challenge you faced and how you overcame it.",
     "How do you stay motivated at work?",
     "Describe your ideal work environment."]
  else if category = "communication" then some
    ["How do you prefer to communicate with colleagues?",
     "Tell me about a time you had to explain something to someone.",
     "How do you make sure you understand instructions clearly?",
     "Describe your communication style.",
     "How do you handle misunderstandings?",
     "Tell me about presenting to a group."]
  else none

/-- The `'medium'` question bank. -/
def mediumBank (ct : String) (category : String) : Option (List String) :=
  if category = "screening" then some
    ["Walk me through your professional background and how it led you to this role.",
     "How does your experience align specifically with this position\x27s requirements?",
     "What interests you most about this position and our company culture?",
     "Tell me about your educational background and relevant certifications.",
     "What career goals do you hope to achieve in this role?",
     "How do you see this position fitting into your long-term career plan?",
     "What do you know about our industry and current market trends?"]
  else if category = "domain" then some
    ["Describe a challenging " ++ ct ++ " project you\x27ve completed successfully.",
     "How do you stay current with " ++ ct ++ " trends and best practices?",
     "What " ++ ct ++ " methodologies and tools do you prefer and why?",
     "Explain how you would approach a complex " ++ ct ++ " problem.",
     "What are your strongest " ++ ct ++ " skills and how have you applied them?",
     "Describe a time you had to quickly learn a new " ++ ct ++ " technology.",
     "How do you ensure quality and efficiency in your " ++ ct ++ " work?"]
  else if category = "behavioral" then some
    ["Describe a time when you had to work under significant pressure and deliver results.",
     "Tell me about navigating a challenging team dynamic or conflict.",
     "How do you approach learning complex new skills or technologies?",
     "Describe a significant mistake you made and how you handled it.",
     "Tell me about adapting to a major change in your work environment.",
     "Describe a situation where you took initiative to solve an important problem.",
     "How do you balance multiple competing priorities effectively?",
     "Tell me about a time you had to influence others without formal authority."]
  else if category = "communication" then some
    ["How do you ensure effective communication across diverse team members?",
     "Describe presenting complex technical information to non-technical stakeholders.",
     "How do you handle constructive criticism and incorporate feedback?",
     "Tell me about facilitating understanding between different departments.",
     "How do you adapt your communication style to different audiences?",
     "Describe resolving a significant miscommunication and its consequences."]
  else none

/-- The `'very_hard'` question bank. -/
def veryHardBank (ct : String) (category : String) : Option (List String) :=
  if category = "screening" then some
    ["Analyze how your comprehensive background uniquely positions you to drive strategic impact in this role.",
     "Evaluate the alignment between your experience and our organization\x27s complex challenges and growth objectives.",
     "What innovative perspectives do you bring that could transform how we approach this role?",
     "How would you leverage your educational foundation and professional development to create competitive advantages?",
     "Articulate your vision for how this role could evolve and create value beyond traditional expectations.",
     "Assess the strategic implications of your career choices and how they prepare you for industry disruption.",
     "How would you position our organization within the competitive landscape based on your industry insight?"]
  else if category = "domain" then some
    ["Design and architect a comprehensive solution for a complex, multi-stakeholder " ++ ct ++ " challenge.",
     "How would you establish thought leadership and drive innovation in " ++ ct ++ " within our organization?",
     "Evaluate competing " ++ ct ++ " approaches and justify strategic technology decisions for enterprise-scale implementation.",
     "How would you build and lead a " ++ ct ++ " transformation initiative with significant business impact?",
     "Analyze the future evolution of " ++ ct ++ " and position our organization for emerging opportunities.",
     "Design a comprehensive " ++ ct ++ " strategy that balances innovation, risk management, and business objectives.",
     "How would you establish and optimize " ++ ct ++ " excellence across multiple teams and complex projects?"]
  else if category = "behavioral" then some
    ["Analyze a situation where you had to make critical decisions with incomplete information under extreme pressure.",
     "Describe leading organizational change through significant resistance while maintaining team performance.",
     "How do you build expertise in emerging fields while managing multiple complex responsibilities?",
     "Evaluate a major strategic mistake you made and the comprehensive lessons learned.",
     "Describe architecting solutions for systemic organizational challenges affecting multiple stakeholders.",
     "How do you drive innovation and calculated risk-taking while ensuring operational excellence?",
     "Analyze your approach to building high-performing teams across diverse and complex environments.",
     "Describe influencing C-level executives and board members to support transformational initiatives."]
  else if category = "communication" then some
    ["How do you architect communication strategies for complex, multi-stakeholder organizational transformations?",
     "Describe presenting strategic recommendations that influenced major business decisions to executive leadership.",
     "How do you synthesize and communicate complex analysis to drive consensus among conflicting stakeholder interests?",
     "Analyze your approach to building communication frameworks that scale across global, diverse organizations.",
     "How do you establish thought leadership and influence industry conversations through strategic communication?",
     "Describe managing communication during organizational crisis while maintaining stakeholder confidence and team morale."]
  else none

/-- `fallback_questions.get(difficulty_level, fallback_questions['medium'])`:
the difficulty-tier bank, defaulting to the medium bank for any unknown
difficulty key (such as `'hard'`). -/
def fallbackDifficultyBank (ct difficulty : String) : String → Option (List String) :=
  if difficulty = "easy" then easyBank ct
  else if difficulty = "medium" then mediumBank ct
  else if difficulty = "very_hard" then veryHardBank ct
  else mediumBank ct

/-- `difficulty_questions.get(category, difficulty_questions['screening'])`. -/
def categoryQuestionBank (ct difficulty category : String) : List String :=
  match fallbackDifficultyBank ct difficulty category with
  | some l => l
  | none => (fallbackDifficultyBank ct difficulty "screening").getD []

/-- The templated padding question generated when the canned list runs
out before `count` is reached. -/
def paddingQuestion (difficulty category : String) : String :=
  if difficulty = "easy" then
    "Tell me more about your " ++ category ++ " experience and what you\x27ve learned."
  else if difficulty = "very_hard" then
    "Analyze and evaluate a complex " ++ category ++ " scenario where you had to drive strategic outcomes."
  else
    "Describe a challenging " ++ category ++ " situation and how you approached it systematically."

/-- The inner `for i in range(count)` loop for one category:
`count` questions labelled with the category, ids starting at
`startId`. -/
def fallbackQuestionsFor (ct cl difficulty category : String)
    (count startId : ℕ) : List GeneratedQuestion :=
  let bank := categoryQuestionBank ct difficulty category
  (List.range count).map (fun i =>
    { id := startId + i,
      category := category,
      question := if i < bank.length then bank.getD i "" else paddingQuestion difficulty category,
      focus_area := category ++ " assessment (" ++ difficulty ++ " level)",
      expected_depth := cl ++ " - " ++ difficulty ++ " complexity" })

/-- `distribution.get(key, 0)` on the ordered dict model. -/
def distGet (distribution : List (String × ℕ)) (k : String) : ℕ :=
  ((distribution.find? (fun p => p.1 = k)).map Prod.snd).getD 0

/-- One iteration of the outer `for category, count in
distribution.items()` loop: skip non-positive counts, otherwise extend
the question list and advance the running `question_id`. -/
def fallbackBuildStep (ct cl diff : String) (acc : ℕ × List GeneratedQuestion)
    (p : String × ℕ) : ℕ × List GeneratedQuestion :=
  if 0 < p.2 then
    (acc.1 + p.2, acc.2 ++ fallbackQuestionsFor ct cl diff p.1 p.2 acc.1)
  else acc

/-- `_generate_fallback_questions(candidate_type, candidate_level,
distribution, total_questions, difficulty_level)`.  The distribution
dict is modelled as an assoc list in iteration order (a Python dict
never repeats a key).  The `total_questions` argument is unused by the
source body: the output reports the count actually generated. -/
def generate_fallback_questions (candidate_type candidate_level : String)
    (distribution : List (String × ℕ)) (total_questions : ℕ)
    (difficulty_level : String) : FallbackOutput :=
  let questions :=
    (distribution.foldl
      (fallbackBuildStep candidate_type candidate_level difficulty_level) (1, [])).2
  let focus_areas :=
    (if 0 < distGet distribution "screening" then ["background verification"] else []) ++
    (if 0 < distGet distribution "domain" then [candidate_type ++ " expertise"] else []) ++
    (if 0 < distGet distribution "behavioral" then ["behavioral assessment"] else []) ++
    (if 0 < distGet distribution "communication" then ["communication skills"] else [])
  { questions := questions,
    interview_focus :=
      "Focused " ++ pyUpper difficulty_level ++ " level assessment on " ++
      String.intercalate ", " focus_areas ++ " for " ++ candidate_level ++ " " ++
      candidate_type ++ " role",
    success_criteria :=
      "Clear communication, relevant experience, and " ++ candidate_level ++
      "-appropriate depth in allocated assessment areas",
    total_questions := questions.length,
    estimated_duration := questions.length * 2 }

/-! ## `InterviewQuestionGenerator.generate_standardized_questions`,
post-decode validation (resumematching.py lines 1785-1827)

The LLM call, prompt assembly and JSON decoding are external; the
embedded function starts from the decoded response.  Only the
`questions` key and each question's `category` key influence the
validation, so the decoded response is modelled as
`Option (List (Option String))`: `none` for a missing `questions` key,
and per question the optional `category` value
(`question.get('category', 'screening')`). -/

/-- The outcome: either the validated LLM data (with the metadata the
function adds) or the canned fallback set. -/
inductive StdGenResult where
  | llm (questions : List (Option String)) (total_questions estimated_duration : ℕ)
  | fellBack (out : FallbackOutput)
deriving DecidableEq, Repr

/-- `generated_distribution`: count each question whose category is one
of the four known ones (`question.get('category', 'screening')`,
unknown categories are not counted anywhere). -/
def generatedDistributionOf (cats : List (Option String)) : QuestionDistribution :=
  cats.foldl
    (fun d c =>
      let category := c.getD "screening"
      if category = "screening" then { d with screening := d.screening + 1 }
      else if category = "domain" then { d with domain := d.domain + 1 }
      else if category = "behavioral" then { d with behavioral := d.behavioral + 1 }
      else if category = "communication" then { d with communication := d.communication + 1 }
      else d)
    ⟨0, 0, 0, 0⟩

/-- `distribution_valid`: every required per-category count matches the
generated one. -/
def distributionMatches (required generated : QuestionDistribution) : Bool :=
  (required.screening = generated.screening : Bool) &&
  (required.domain = generated.domain : Bool) &&
  (required.behavioral = generated.behavioral : Bool) &&
  (required.communication = generated.communication : Bool)

/-- The distribution dict in its insertion order, as passed to the
fallback generator. -/
def distributionPairs (d : QuestionDistribution) : List (String × ℕ) :=
  [("screening", d.screening), ("domain", d.domain),
   ("behavioral", d.behavioral), ("communication", d.communication)]

/-- The validation tail of `generate_standardized_questions`: a missing
`questions` key or a wrong total count or a per-category mismatch
returns the canned fallback set; otherwise the decoded data is returned
with `total_questions` / `estimated_duration` metadata. -/
def generate_standardized_postdecode (decoded_questions : Option (List (Option String)))
    (question_distribution : QuestionDistribution) (total_questions : ℕ)
    (candidate_type candidate_level difficulty_level : String)
    (estimated_duration : ℕ) : StdGenResult :=
  let fb := StdGenResult.fellBack
    (generate_fallback_questions candidate_type candidate_level
      (distributionPairs question_distribution) total_questions difficulty_level)
  match decoded_questions with
  | none => fb
  | some qs =>
    if qs.length ≠ total_questions then fb
    else if distributionMatches question_distribution (generatedDistributionOf qs) then
      .llm qs total_questions estimated_duration
    else fb

/-!
# Theorems

The core rational operations of Batteries are `@[irreducible]`; they are
unsealed so that concrete score computations reduce.
-/

set_option maxRecDepth 100000

unseal Rat.add Rat.mul Rat.sub Rat.inv

/-- C7: `determine_difficulty_level` is a total pure function returning
`"easy"` exactly when the score is at most 60, `"medium"` exactly when it
is in (60, 70], and `"very_hard"` exactly when it exceeds 70; in
particular 60 maps to easy, 61 and 70 to medium, and 71 to very_hard. -/
theorem C7_determine_difficulty_level_thresholds :
    (∀ s : ℤ,
      (determine_difficulty_level s = "easy" ↔ s ≤ 60) ∧
      (determine_difficulty_level s = "medium" ↔ 60 < s ∧ s ≤ 70) ∧
      (determine_difficulty_level s = "very_hard" ↔ 70 < s)) ∧
    determine_difficulty_level 60 = "easy" ∧
    determine_difficulty_level 61 = "medium" ∧
    determine_difficulty_level 70 = "medium" ∧
    determine_difficulty_level 71 = "very_hard" := by
  refine ⟨fun s => ?_, rfl, rfl, rfl, rfl⟩
  unfold determine_difficulty_level
  by_cases h1 : s ≤ 60
  · rw [if_pos h1]
    exact ⟨⟨fun _ => h1, fun _ => rfl⟩,
      ⟨fun h => absurd h (by decide), fun h => absurd h1 (by omega)⟩,
      ⟨fun h => absurd h (by decide), fun h => absurd h1 (by omega)⟩⟩
  · rw [if_neg h1]
    by_cases h2 : s ≤ 70
    · rw [if_pos h2]
      exact ⟨⟨fun h => absurd h (by decide), fun h => absurd h h1⟩,
        ⟨fun _ => ⟨by omega, h2⟩, fun _ => rfl⟩,
        ⟨fun h => absurd h (by decide), fun h => absurd h2 (by omega)⟩⟩
    · rw [if_neg h2]
      exact ⟨⟨fun h => absurd h (by decide), fun h => absurd h (by omega)⟩,
        ⟨fun h => absurd h (by decide), fun h => absurd h2 (by omega)⟩,
        ⟨fun _ => by omega, fun _ => rfl⟩⟩

/-- C6: evaluating the repairer at the claim's exact input
`{"a":1,"b":[1,2,3,]}`.  The trailing comma is removed, but the
"unescaped quote" pass then rewrites the text to
`{"a\"2\"b":[1,2,3]}`, which parses to an object with the single key
`a"2"b` — not to `{"a":1,"b":[1,2,3]}` as the claim requires. -/
theorem C6_repair_json_round_trip_fails :
    repair_json "\x7b\"a\":1,\"b\":[1,2,3,]\x7d" = "\x7b\"a\\\"2\\\"b\":[1,2,3]\x7d" ∧
    (jsonParse (repair_json "\x7b\"a\":1,\"b\":[1,2,3,]\x7d")).map Json.topKeys =
      some ["a\"2\"b"] ∧
    (jsonParse "\x7b\"a\":1,\"b\":[1,2,3]\x7d").map Json.topKeys = some ["a", "b"] ∧
    (["a\"2\"b"] : List String) ≠ ["a", "b"] := by
  exact ⟨by decide, by decide, by decide, by decide⟩

/-- C3: evaluating the weighting pass at a main question (score 4,
domain, unmatched difficulty so medium ×1.2) followed by one follow-up
(score 2).  The pass marks the main question excluded with reason
"Score replaced by follow-up question", yet `raw_score` (and the domain
totals) still contain the main question's 4 × 1.2 = 4.8 contribution:
the accumulated total is 7.2, not the 2.4 the claim's replacement
semantics would give. -/
theorem C3_followup_score_not_replaced_in_totals :
    (analyseWeighting [⟨some "zzz unrelated question text", some "hard"⟩]
      [⟨"Describe your experience with relational databases.", "I used them",
        some 4, some true, none, none⟩,
       ⟨"Can you elaborate on that?", "More detail", some 2, some true, none, none⟩]
      none).raw_score = 36/5 ∧
    (analyseWeighting [⟨some "zzz unrelated question text", some "hard"⟩]
      [⟨"Describe your experience with relational databases.", "I used them",
        some 4, some true, none, none⟩,
       ⟨"Can you elaborate on that?", "More detail", some 2, some true, none, none⟩]
      none).raw_domain_score = 36/5 ∧
    ((analyseWeighting [⟨some "zzz unrelated question text", some "hard"⟩]
      [⟨"Describe your experience with relational databases.", "I used them",
        some 4, some true, none, none⟩,
       ⟨"Can you elaborate on that?", "More detail", some 2, some true, none, none⟩]
      none).questionsData.get? 0).map
        (fun q => (q.excluded_from_scoring, q.exclusion_reason)) =
      some (true, some "Score replaced by follow-up question") ∧
    ((analyseWeighting [⟨some "zzz unrelated question text", some "hard"⟩]
      [⟨"Describe your experience with relational databases.", "I used them",
        some 4, some true, none, none⟩,
       ⟨"Can you elaborate on that?", "More detail", some 2, some true, none, none⟩]
      none).questionsData.get? 1).map (fun q => (q.weighted_score, q.excluded_from_scoring)) =
      some (some (12/5), false) ∧
    (36/5 : ℚ) = 24/5 + 12/5 ∧ (36/5 : ℚ) ≠ 12/5 := by
  exact ⟨by decide, by decide, by decide, by decide, by decide, by decide⟩

/-- C2 (counterexample): at seven domain questions of score 3 (medium
×1.2) and communication score 99, the normalized domain score is
exactly 60 and the code stores `int(60*0.8 + 99*0.2) = int(67.8) = 67`,
while the claimed `round(...)` would give 68. -/
theorem C2_overall_score_round_counterexample :
    (analyseWeighting [⟨some "zzz unrelated question text", some "hard"⟩]
      [⟨"Explain topic alpha.", "answer one", some 3, some true, none, none⟩,
       ⟨"Explain topic beta.", "answer two", some 3, some true, none, none⟩,
       ⟨"Explain topic gamma.", "answer three", some 3, some true, none, none⟩,
       ⟨"Explain topic delta.", "answer four", some 3, some true, none, none⟩,
       ⟨"Explain topic epsilon.", "answer five", some 3, some true, none, none⟩,
       ⟨"Explain topic zeta.", "answer six", some 3, some true, none, none⟩,
       ⟨"Explain topic eta.", "answer seven", some 3, some true, none, none⟩]
      (some 99)).overall_score = 67 ∧
    normalizedDomainOf [⟨some "zzz unrelated question text", some "hard"⟩]
      [⟨"Explain topic alpha.", "answer one", some 3, some true, none, none⟩,
       ⟨"Explain topic beta.", "answer two", some 3, some true, none, none⟩,
       ⟨"Explain topic gamma.", "answer three", some 3, some true, none, none⟩,
       ⟨"Explain topic delta.", "answer four", some 3, some true, none, none⟩,
       ⟨"Explain topic epsilon.", "answer five", some 3, some true, none, none⟩,
       ⟨"Explain topic zeta.", "answer six", some 3, some true, none, none⟩,
       ⟨"Explain topic eta.", "answer seven", some 3, some true, none, none⟩] = 60 ∧
    pyRound ((60 : ℚ) * (4/5) + 99 * (1/5)) = 68 ∧ (67 : ℤ) ≠ 68 := by
  exact ⟨by decide, by decide, by decide, by decide⟩

/-- C2 (amended): the stored `overall_score` is the `int()` truncation
— not the rounding — of `0.8 * normalized_domain_score +
0.2 * communication_score`, where the normalized domain score is taken
as 0 when its post-compensation denominator is 0. -/
theorem C2_overall_score_is_truncation :
    (∀ (iqs : List InterviewQuestion) (qd : List LLMQuestion) (comm : Option ℚ),
      (analyseWeighting iqs qd comm).overall_score =
        pyTrunc (normalizedDomainOf iqs qd * (4/5) +
          (analyseWeighting iqs qd comm).communication_score * (1/5))) ∧
    (∀ (iqs : List InterviewQuestion) (qd : List LLMQuestion),
      (compensateAbandoned (classifyQuestions (buildDifficultyMap iqs) qd).processed
        (classifyQuestions (buildDifficultyMap iqs) qd).max_score
        (classifyQuestions (buildDifficultyMap iqs) qd).domain_max_score).domain_max_score = 0 →
      normalizedDomainOf iqs qd = 0) := by
  constructor
  · intro iqs qd comm
    rfl
  · intro iqs qd h
    simp only [normalizedDomainOf]
    rw [h]
    norm_num

/-- C2 witness: the truncation identity and the zero-denominator rule
evaluated at a concrete interview with seven non-domain questions
(zero domain denominator). -/
theorem C2_overall_score_is_truncation_witness :
    (analyseWeighting [⟨some "q", some "easy"⟩]
      [⟨"Explain topic alpha.", "a", some 3, some false, none, none⟩,
       ⟨"Explain topic beta.", "b", some 3, some false, none, none⟩,
       ⟨"Explain topic gamma.", "c", some 3, some false, none, none⟩,
       ⟨"Explain topic delta.", "d", some 3, some false, none, none⟩,
       ⟨"Explain topic epsilon.", "e", some 3, some false, none, none⟩,
       ⟨"Explain topic zeta.", "f", some 3, some false, none, none⟩,
       ⟨"Explain topic eta.", "g", some 3, some false, none, none⟩]
      none).overall_score =
      pyTrunc (normalizedDomainOf [⟨some "q", some "easy"⟩]
        [⟨"Explain topic alpha.", "a", some 3, some false, none, none⟩,
         ⟨"Explain topic beta.", "b", some 3, some false, none, none⟩,
         ⟨"Explain topic gamma.", "c", some 3, some false, none, none⟩,
         ⟨"Explain topic delta.", "d", some 3, some false, none, none⟩,
         ⟨"Explain topic epsilon.", "e", some 3, some false, none, none⟩,
         ⟨"Explain topic zeta.", "f", some 3, some false, none, none⟩,
         ⟨"Explain topic eta.", "g", some 3, some false, none, none⟩] * (4/5) + 50 * (1/5)) ∧
    normalizedDomainOf [⟨some "q", some "easy"⟩]
      [⟨"Explain topic alpha.", "a", some 3, some false, none, none⟩,
       ⟨"Explain topic beta.", "b", some 3, some false, none, none⟩,
       ⟨"Explain topic gamma.", "c", some 3, some false, none, none⟩,
       ⟨"Explain topic delta.", "d", some 3, some false, none, none⟩,
       ⟨"Explain topic epsilon.", "e", some 3, some false, none, none⟩,
       ⟨"Explain topic zeta.", "f", some 3, some false, none, none⟩,
       ⟨"Explain topic eta.", "g", some 3, some false, none, none⟩] = 0 :=
  ⟨C2_overall_score_is_truncation.1 _ _ none,
   C2_overall_score_is_truncation.2 _ _ (by decide)⟩

/-- C5 (counterexample): `_is_skipped_answer` classifies the answer
"i don't know" as skipped, yet the weighting pass keeps the
LLM-assigned score 3 for that question: its stored score is 3, its
weighted score 3 × 1.2 = 3.6 enters `raw_score`, and 3.6 ≠ 0 — the
skip rule is never enforced in code. -/
theorem C5_skip_marker_answer_keeps_llm_score :
    is_skipped_answer "i don\x27t know" = true ∧
    ((analyseWeighting [⟨some "zzz unrelated question text", some "hard"⟩]
      [⟨"What is your experience with Kubernetes?", "i don\x27t know",
        some 3, some true, none, none⟩] none).questionsData.get? 0).map
        (fun q => (q.score, q.weighted_score, q.excluded_from_scoring)) =
      some (some 3, some (18/5), false) ∧
    (analyseWeighting [⟨some "zzz unrelated question text", some "hard"⟩]
      [⟨"What is your experience with Kubernetes?", "i don\x27t know",
        some 3, some true, none, none⟩] none).raw_score = 18/5 ∧
    (18/5 : ℚ) ≠ 0 := by
  exact ⟨by decide, by decide, by decide, by decide⟩

/-- C4: the abandoned-interview compensation.  When fewer than 7
scorable questions remain, each missing slot adds exactly
5 × 1.2 = 6 to `max_score` and to `domain_max_score`, appends a
placeholder entry (score 0, difficulty medium, multiplier 1.2,
`is_domain_question = true`), and the raw scores flow through the
pipeline unchanged by compensation. -/
theorem C4_abandoned_interview_compensation :
    (∀ (qs : List ScoredQuestion) (maxS dmaxS : ℚ),
      scorableCount qs < 7 →
      (compensateAbandoned qs maxS dmaxS).max_score =
        maxS + (7 - scorableCount qs : ℕ) * 6 ∧
      (compensateAbandoned qs maxS dmaxS).domain_max_score =
        dmaxS + (7 - scorableCount qs : ℕ) * 6 ∧
      (compensateAbandoned qs maxS dmaxS).questionsData =
        qs ++ (List.range (7 - scorableCount qs)).map
          (fun i => abandonedEntry (scorableCount qs + i + 1)) ∧
      (compensateAbandoned qs maxS dmaxS).questions_asked = scorableCount qs) ∧
    (∀ n, (abandonedEntry n).score = some 0 ∧
      (abandonedEntry n).difficulty = some "medium" ∧
      (abandonedEntry n).difficulty_multiplier = some (6/5) ∧
      (abandonedEntry n).is_domain_question = some true ∧
      (abandonedEntry n).is_abandoned = true) ∧
    ((5 : ℚ) * (6/5) = 6) ∧
    (∀ (iqs : List InterviewQuestion) (qd : List LLMQuestion) (comm : Option ℚ),
      (analyseWeighting iqs qd comm).raw_score =
        pyRound2 (classifyQuestions (buildDifficultyMap iqs) qd).raw_score ∧
      (analyseWeighting iqs qd comm).raw_domain_score =
        pyRound2 (classifyQuestions (buildDifficultyMap iqs) qd).domain_raw_score) := by
  refine ⟨?_, fun n => ⟨rfl, rfl, rfl, rfl, rfl⟩, by norm_num, fun iqs qd comm => ⟨rfl, rfl⟩⟩
  intro qs maxS dmaxS h
  have hc : scorableCount qs < totalExpectedQuestions := h
  unfold compensateAbandoned
  rw [if_pos hc]
  unfold totalExpectedQuestions
  exact ⟨by ring, by ring, rfl, rfl⟩

/-- C4 witness: with 4 scorable questions of the 7 expected, exactly
3 × 6 = 18 is added to the denominator. -/
theorem C4_abandoned_interview_compensation_witness :
    scorableCount (List.replicate 4 (abandonedEntry 1)) < 7 ∧
    (compensateAbandoned (List.replicate 4 (abandonedEntry 1)) 24 24).max_score = 24 + 18 ∧
    (compensateAbandoned (List.replicate 4 (abandonedEntry 1)) 24 24).domain_max_score = 24 + 18 := by
  have h := C4_abandoned_interview_compensation.1
    (List.replicate 4 (abandonedEntry 1)) 24 24 (by decide)
  have hsc : scorableCount (List.replicate 4 (abandonedEntry 1)) = 4 := by decide
  refine ⟨by decide, ?_, ?_⟩
  · rw [h.1, hsc]; norm_num
  · rw [h.2.1, hsc]; norm_num

/-- C9: when the decoded LLM response is missing its `questions` list,
has the wrong number of questions, or fails the per-category
distribution check, `generate_standardized_questions` returns the
deterministic canned fallback set (no exception path exists in the
embedded validation). -/
theorem C9_distribution_validation_falls_back :
    ∀ (decoded : Option (List (Option String))) (dist : QuestionDistribution)
      (total : ℕ) (ct cl diff : String) (est : ℕ),
      (decoded = none ∨ ∃ qs, decoded = some qs ∧
        (qs.length ≠ total ∨
          distributionMatches dist (generatedDistributionOf qs) = false)) →
      generate_standardized_postdecode decoded dist total ct cl diff est =
        .fellBack (generate_fallback_questions ct cl (distributionPairs dist) total diff) := by
  intro decoded dist total ct cl diff est h
  rcases h with h | ⟨qs, rfl, h⟩
  · rw [h]; rfl
  · simp only [generate_standardized_postdecode]
    rcases h with h | h
    · rw [if_pos h]
    · by_cases hl : qs.length ≠ total
      · rw [if_pos hl]
      · rw [if_neg hl, h]
        simp

/-- C9 witness: a decoded response with one question against a
requested total of 2 triggers the canned fallback. -/
theorem C9_distribution_validation_falls_back_witness :
    generate_standardized_postdecode (some [some "screening"]) ⟨1, 1, 0, 0⟩ 2
        "tech" "mid" "medium" 10 =
      .fellBack (generate_fallback_questions "tech" "mid"
        (distributionPairs ⟨1, 1, 0, 0⟩) 2 "medium") :=
  C9_distribution_validation_falls_back _ _ _ _ _ _ _
    (Or.inr ⟨[some "screening"], rfl, Or.inl (by decide)⟩)

/-- The questions generated for one category all carry that category
label: filtering on a label keeps all of them or none. -/
theorem fallbackQuestionsFor_filter_length (ct cl diff category cat : String)
    (count startId : ℕ) :
    ((fallbackQuestionsFor ct cl diff category count startId).filter
      (fun q => q.category = cat)).length = if category = cat then count else 0 := by
  unfold fallbackQuestionsFor
  by_cases h : category = cat
  · subst h
    rw [List.filter_map]
    simp only [Function.comp_def]
    simp
  · simp [h]

/-- Folding the fallback build over categories other than `cat` leaves
the `cat`-labelled question count unchanged. -/
theorem fallbackBuildStep_untouched (ct cl diff cat : String) :
    ∀ (dist : List (String × ℕ)) (acc : ℕ × List GeneratedQuestion),
      cat ∉ dist.map Prod.fst →
      ((dist.foldl (fallbackBuildStep ct cl diff) acc).2.filter
        (fun q => q.category = cat)).length =
      (acc.2.filter (fun q => q.category = cat)).length := by
  intro dist
  induction dist with
  | nil => intro acc _; rfl
  | cons p rest ih =>
    intro acc hmem
    rw [List.foldl_cons]
    have hk : p.1 ≠ cat := by
      simp only [List.map_cons, List.mem_cons] at hmem
      tauto
    have hrest : cat ∉ rest.map Prod.fst := by
      simp only [List.map_cons, List.mem_cons] at hmem
      tauto
    rw [ih _ hrest]
    unfold fallbackBuildStep
    by_cases hc : 0 < p.2
    · rw [if_pos hc]
      simp [List.filter_append, fallbackQuestionsFor_filter_length, hk]
    · rw [if_neg hc]

/-- Folding the fallback build over a distribution with distinct keys
adds exactly `p.2` questions labelled `p.1` for each positive entry. -/
theorem fallbackBuild_count (ct cl diff : String) :
    ∀ (dist : List (String × ℕ)) (acc : ℕ × List GeneratedQuestion) (p : String × ℕ),
      (dist.map Prod.fst).Nodup → p ∈ dist → 0 < p.2 →
      ((dist.foldl (fallbackBuildStep ct cl diff) acc).2.filter
        (fun q => q.category = p.1)).length =
      (acc.2.filter (fun q => q.category = p.1)).length + p.2 := by
  intro dist
  induction dist with
  | nil => intro _ _ _ hmem; cases hmem
  | cons q rest ih =>
    intro acc p hnd hmem hpos
    rw [List.foldl_cons]
    rcases List.mem_cons.mp hmem with heq | hmem2
    · subst heq
      have hnot : p.1 ∉ rest.map Prod.fst := by
        simp only [List.map_cons] at hnd
        exact (List.nodup_cons.mp hnd).1
      rw [fallbackBuildStep_untouched ct cl diff p.1 rest _ hnot]
      unfold fallbackBuildStep
      rw [if_pos hpos]
      simp [List.filter_append, fallbackQuestionsFor_filter_length]
    · have hnd2 : (rest.map Prod.fst).Nodup := by
        simp only [List.map_cons] at hnd
        exact (List.nodup_cons.mp hnd).2
      rw [ih _ p hnd2 hmem2 hpos]
      have hne : q.1 ≠ p.1 := by
        simp only [List.map_cons] at hnd
        have h1 := (List.nodup_cons.mp hnd).1
        intro he
        exact h1 (he ▸ (List.mem_map.mpr ⟨p, hmem2, rfl⟩))
      unfold fallbackBuildStep
      by_cases hc : 0 < q.2
      · rw [if_pos hc]
        simp [List.filter_append, fallbackQuestionsFor_filter_length, hne]
      · rw [if_neg hc]

/-- C10: for every distribution dict (distinct keys) the canned
fallback generator emits exactly the requested number of questions per
positive category (padding when the bank is short), never an empty set
for a positive request; its `total_questions` field is the length of
the emitted list; and an unknown difficulty key such as `"hard"`
selects the medium question bank. -/
theorem C10_fallback_generator_distribution :
    (∀ (ct cl : String) (dist : List (String × ℕ)) (total : ℕ) (diff : String),
      (dist.map Prod.fst).Nodup → ∀ p ∈ dist, 0 < p.2 →
      (((generate_fallback_questions ct cl dist total diff).questions.filter
          (fun q => q.category = p.1)).length = p.2 ∧
        (generate_fallback_questions ct cl dist total diff).questions ≠ [])) ∧
    (∀ (ct cl : String) (dist : List (String × ℕ)) (total : ℕ) (diff : String),
      (generate_fallback_questions ct cl dist total diff).total_questions =
        (generate_fallback_questions ct cl dist total diff).questions.length) ∧
    (∀ ct : String, fallbackDifficultyBank ct "hard" = fallbackDifficultyBank ct "medium") := by
  refine ⟨?_, fun ct cl dist total diff => rfl, fun ct => rfl⟩
  intro ct cl dist total diff hnd p hmem hpos
  have hcount : ((generate_fallback_questions ct cl dist total diff).questions.filter
      (fun q => q.category = p.1)).length = p.2 := by
    show ((dist.foldl (fallbackBuildStep ct cl diff) (1, [])).2.filter
      (fun q => q.category = p.1)).length = p.2
    rw [fallbackBuild_count ct cl diff dist (1, []) p hnd hmem hpos]
    simp
  refine ⟨hcount, ?_⟩
  intro hnil
  rw [hnil] at hcount
  simp at hcount
  omega

/-- C10 witness: two domain questions requested at the unknown
difficulty `"hard"` yield exactly two domain-labelled questions. -/
theorem C10_fallback_generator_distribution_witness :
    (List.map Prod.fst [("domain", 2)]).Nodup ∧
    ((generate_fallback_questions "tech" "mid" [("domain", 2)] 2 "hard").questions.filter
        (fun q => q.category = "domain")).length = 2 ∧
    (generate_fallback_questions "tech" "mid" [("domain", 2)] 2 "hard").questions ≠ [] :=
  ⟨by decide,
   (C10_fallback_generator_distribution.1 "tech" "mid" [("domain", 2)] 2 "hard"
     (by decide) ("domain", 2) (by decide) (by decide)).1,
   (C10_fallback_generator_distribution.1 "tech" "mid" [("domain", 2)] 2 "hard"
     (by decide) ("domain", 2) (by decide) (by decide)).2⟩

/-- Modifying one list element with a function that preserves a
projection preserves the projected list. -/
theorem listModify_map_proj (f : α → α) (g : α → β) (hfg : ∀ x, g (f x) = g x) :
    ∀ (l : List α) (i : ℕ), (listModify l i f).map g = l.map g := by
  intro l
  induction l with
  | nil => intro i; rfl
  | cons x xs ih =>
    intro i
    cases i with
    | zero => simp [listModify, hfg]
    | succ n => simp [listModify, ih]

/-- Each loop iteration appends exactly one processed entry carrying
the decoded question's (unmodified) score. -/
theorem processQuestion_score_map (m : List (String × String)) (st : WeightState)
    (i : ℕ) (q : LLMQuestion) :
    (processQuestion m st i q).processed.map (fun p => p.score) =
      st.processed.map (fun p => p.score) ++ [q.score] := by
  have hmod := listModify_map_proj markReplacedMain (fun p : ScoredQuestion => p.score)
    (fun x => rfl)
  unfold processQuestion scoreTail
  dsimp only []
  repeat' split
  all_goals simp [hmod]

/-- The classification loop maps decoded scores through unchanged. -/
theorem classifyQuestions_score_map (m : List (String × String)) (qs : List LLMQuestion) :
    (classifyQuestions m qs).processed.map (fun p => p.score) =
      qs.map (fun q => q.score) := by
  suffices h : ∀ (l : List LLMQuestion) (n : ℕ) (st : WeightState),
      ((List.enumFrom n l).foldl (fun st p => processQuestion m st p.1 p.2) st).processed.map
          (fun p => p.score) =
        st.processed.map (fun p => p.score) ++ l.map (fun q => q.score) by
    have h0 := h qs 0 ⟨[], 0, 0, 0, 0, -1, []⟩
    simpa [classifyQuestions, List.enum] using h0
  intro l
  induction l with
  | nil => intro n st; simp [List.enumFrom]
  | cons q rest ih =>
    intro n st
    have hfold : List.enumFrom n (q :: rest) = (n, q) :: List.enumFrom (n + 1) rest := rfl
    rw [hfold, List.foldl_cons, ih (n + 1), processQuestion_score_map]
    simp

/-- C5 (amended): `_is_skipped_answer` does flag empty/whitespace-only
answers and skip-marker answers as skipped, but the weighting pass
copies every decoded score through unmodified — no code path applies
the skip predicate to zero a score. -/
theorem C5_scores_pass_through_unmodified :
    (∀ a : String, pyStrip a = "" → is_skipped_answer a = true) ∧
    (∀ (a p : String), p ∈ skipPatterns →
      strContains (pyStrip (pyLower a)) p = true → is_skipped_answer a = true) ∧
    (∀ (iqs : List InterviewQuestion) (qd : List LLMQuestion) (i : ℕ) (q : LLMQuestion),
      qd.get? i = some q →
      ((classifyQuestions (buildDifficultyMap iqs) qd).processed.get? i).map
        (fun p => p.score) = some q.score) := by
  refine ⟨?_, ?_, ?_⟩
  · intro a h
    unfold is_skipped_answer
    rw [h]
    simp
  · intro a p hp hc
    unfold is_skipped_answer
    split
    · rfl
    · exact List.any_eq_true.mpr ⟨p, hp, hc⟩
  · intro iqs qd i q hq
    have hmap := classifyQuestions_score_map (buildDifficultyMap iqs) qd
    have h1 : ((classifyQuestions (buildDifficultyMap iqs) qd).processed.map
        (fun p => p.score)).get? i = some q.score := by
      rw [hmap, List.get?_map, hq]
      rfl
    rw [List.get?_map] at h1
    exact h1

/-- C5 amended witness: the pass of one skip-marker answer with LLM
score 4 keeps score 4, and the predicate facts at concrete inputs. -/
theorem C5_scores_pass_through_unmodified_witness :
    is_skipped_answer "   " = true ∧
    is_skipped_answer "well, no idea at all" = true ∧
    ((classifyQuestions (buildDifficultyMap [⟨some "alpha", some "easy"⟩])
        [⟨"What is X?", "no idea", some 4, some true, none, none⟩]).processed.get? 0).map
      (fun p => p.score) = some (some 4) :=
  ⟨C5_scores_pass_through_unmodified.1 "   " (by decide),
   C5_scores_pass_through_unmodified.2.1 "well, no idea at all" "no idea"
     (by decide) (by decide),
   C5_scores_pass_through_unmodified.2.2 [⟨some "alpha", some "easy"⟩]
     [⟨"What is X?", "no idea", some 4, some true, none, none⟩] 0
     ⟨"What is X?", "no idea", some 4, some true, none, none⟩ rfl⟩

/-- The pending question of a parse state, as the (0- or 1-element)
list of pairs a final flush would emit. -/
def pendList (s : ParseState) : List String :=
  if qTruthy s.currentQuestion then [s.currentQuestion.getD ""] else []

/-- Flushing emits the accumulated pairs plus the pending question. -/
theorem flushPending_map (s : ParseState) :
    (flushPending s).map (fun p => p.question) =
      s.pairs.map (fun p => p.question) ++ pendList s := by
  unfold flushPending pendList
  split
  · simp
  · simp

/-- One line preserves the emitted/pending question sequence, extended
by the question text the line contributes (if any). -/
theorem parseLine_question_invariant (s : ParseState) (l : String) :
    (parseLine s l).pairs.map (fun p => p.question) ++ pendList (parseLine s l) =
      s.pairs.map (fun p => p.question) ++ pendList s ++
        (emittedQuestionOf l).toList := by
  unfold parseLine emittedQuestionOf
  dsimp only []
  split
  · simp_all
  · split
    · rename_i hne hq
      rw [flushPending_map]
      unfold pendList qTruthy
      by_cases ht : questionTextOf (pyStrip l) = ""
      · simp [hne, hq, ht]
      · simp [hne, hq, ht]
    · rename_i hne hq
      simp only [Bool.not_eq_true] at hq
      simp only [hne, hq]
      split
      · simp [pendList]
      · split
        · simp [pendList]
        · simp

/-- The fold of the parser over any line list: emitted plus pending
questions are exactly the contributed question texts, in order. -/
theorem parseFold_question_invariant :
    ∀ (lines : List String) (s : ParseState),
      (lines.foldl parseLine s).pairs.map (fun p => p.question) ++
          pendList (lines.foldl parseLine s) =
        s.pairs.map (fun p => p.question) ++ pendList s ++
          lines.filterMap emittedQuestionOf := by
  intro lines
  induction lines with
  | nil => intro s; simp
  | cons l rest ih =>
    intro s
    rw [List.foldl_cons, ih (parseLine s l), parseLine_question_invariant]
    cases h : emittedQuestionOf l
    · simp [h]
    · simp [h]

/-- A line whose contributed question text is `t` flushes the previous
pair and makes `t` pending with an empty answer accumulator. -/
theorem parseLine_of_emitted (s : ParseState) (l t : String)
    (h : emittedQuestionOf l = some t) :
    parseLine s l = ⟨some t, [], flushPending s⟩ ∧ t ≠ "" := by
  unfold emittedQuestionOf at h
  dsimp only [] at h
  split at h
  · rename_i hc
    simp only [Bool.and_eq_true, decide_eq_true_eq] at hc
    obtain ⟨⟨hne, hstart⟩, htne⟩ := hc
    have hqt : questionTextOf (pyStrip l) = t := by
      injection h
    subst hqt
    refine ⟨?_, htne⟩
    unfold parseLine
    dsimp only []
    rw [if_neg hne, if_pos hstart]
  · cases h

/-- Any question-marker line (even with empty text) flushes the
previous pair and resets the answer accumulator. -/
theorem parseLine_of_questionLine (s : ParseState) (l : String)
    (h : isQuestionLine l = true) :
    parseLine s l = ⟨some (questionTextOf (pyStrip l)), [], flushPending s⟩ := by
  unfold isQuestionLine at h
  have hne : pyStrip l ≠ "" := by
    intro he
    rw [he] at h
    exact absurd h (by decide)
  unfold parseLine
  dsimp only []
  rw [if_neg hne, if_pos h]

/-- Lines that are neither question- nor answer-marker lines leave a
state with an empty answer accumulator unchanged. -/
theorem parseFold_stable (mid : List String) :
    ∀ (s : ParseState), s.currentAnswer = [] →
      (∀ l ∈ mid, isQuestionLine l = false ∧ isAnswerLine l = false) →
      mid.foldl parseLine s = s := by
  induction mid with
  | nil => intro s _ _; rfl
  | cons l rest ih =>
    intro s hans hmid
    have hl := hmid l (List.mem_cons_self l rest)
    unfold isQuestionLine isAnswerLine at hl
    have hstep : parseLine s l = s := by
      unfold parseLine
      dsimp only []
      by_cases he : pyStrip l = ""
      · rw [if_pos he]
      · rw [if_neg he]
        simp [hl.1, hl.2, hans]
    rw [List.foldl_cons, hstep]
    exact ih s hans (fun x hx => hmid x (List.mem_cons_of_mem l hx))

/-- Each parsed line only appends to the emitted pair list. -/
theorem parseLine_pairs_prefix (s : ParseState) (l : String) :
    ∃ suf, (parseLine s l).pairs = s.pairs ++ suf := by
  unfold parseLine flushPending
  dsimp only []
  repeat' split
  all_goals first
    | exact ⟨_, rfl⟩
    | exact ⟨[], by simp⟩

/-- The whole fold only appends to the emitted pair list. -/
theorem parseFold_pairs_prefix (L : List String) :
    ∀ s, ∃ suf, (L.foldl parseLine s).pairs = s.pairs ++ suf := by
  induction L with
  | nil => intro s; exact ⟨[], by simp⟩
  | cons l rest ih =>
    intro s
    obtain ⟨s1, h1⟩ := parseLine_pairs_prefix s l
    obtain ⟨s2, h2⟩ := ih (parseLine s l)
    exact ⟨s1 ++ s2, by rw [List.foldl_cons, h2, h1, List.append_assoc]⟩

/-- The final flush only appends to the emitted pair list. -/
theorem flushPending_pairs_prefix (s : ParseState) :
    ∃ suf, flushPending s = s.pairs ++ suf := by
  unfold flushPending
  split
  · exact ⟨_, rfl⟩
  · exact ⟨[], by simp⟩

/-- A contributed question followed only by non-marker lines and then a
question line (or end of input) yields the pair `⟨t, ""⟩` at the
position given by the number of questions contributed before it. -/
theorem parseLines_unanswered_question (pre mid post : List String) (ql t : String)
    (hq : emittedQuestionOf ql = some t)
    (hmid : ∀ l ∈ mid, isQuestionLine l = false ∧ isAnswerLine l = false)
    (hpost : post = [] ∨ ∃ l₂ rest, post = l₂ :: rest ∧ isQuestionLine l₂ = true) :
    (parseTranscriptLines (pre ++ (ql :: (mid ++ post)))).get?
        ((pre.filterMap emittedQuestionOf).length) = some ⟨t, ""⟩ := by
  obtain ⟨hstep, htne⟩ := parseLine_of_emitted (pre.foldl parseLine ⟨none, [], []⟩) ql t hq
  set s1 := pre.foldl parseLine (⟨none, [], []⟩ : ParseState) with hs1
  have hinv := parseFold_question_invariant pre ⟨none, [], []⟩
  have hfm : (flushPending s1).map (fun p => p.question) = pre.filterMap emittedQuestionOf := by
    rw [flushPending_map]
    simpa [pendList, qTruthy] using hinv
  have hlen : (flushPending s1).length = (pre.filterMap emittedQuestionOf).length := by
    have := congrArg List.length hfm
    simpa using this
  unfold parseTranscriptLines
  rw [List.foldl_append, List.foldl_cons, ← hs1, hstep, List.foldl_append]
  rw [parseFold_stable mid ⟨some t, [], flushPending s1⟩ rfl hmid]
  have hflush2 : flushPending ⟨some t, [], flushPending s1⟩ =
      flushPending s1 ++ [⟨t, ""⟩] := by
    unfold flushPending
    rw [if_pos (by simpa [qTruthy] using htne)]
    rfl
  rcases hpost with rfl | ⟨l₂, rest, rfl, hql₂⟩
  · rw [List.foldl_nil, hflush2, ← hlen]
    exact List.get?_concat_length _ _
  · rw [List.foldl_cons, parseLine_of_questionLine _ l₂ hql₂, hflush2]
    obtain ⟨suf, hsuf⟩ := parseFold_pairs_prefix rest
      ⟨some (questionTextOf (pyStrip l₂)), [], flushPending s1 ++ [⟨t, ""⟩]⟩
    obtain ⟨suf2, hsuf2⟩ := flushPending_pairs_prefix
      (rest.foldl parseLine ⟨some (questionTextOf (pyStrip l₂)), [], flushPending s1 ++ [⟨t, ""⟩]⟩)
    rw [hsuf2, hsuf]
    rw [← hlen, List.append_assoc, List.get?_append
      (by simp : (flushPending s1).length < (flushPending s1 ++ [(⟨t, ""⟩ : QAPair)]).length)]
    exact List.get?_concat_length _ _

/-- C8 (amended): the parser emits exactly one pair, in transcript
order, for every question-marker line whose text after the colon is
non-empty (a bare `AI:` line is dropped), and a contributed question
followed by no answer-marker lines before the next question line or end
of input yields the empty-string answer. -/
theorem C8_parser_one_pair_per_question_line :
    (∀ t : String,
      (parse_transcript_qa_pairs t).map (fun p => p.question) =
        (splitLines t).filterMap emittedQuestionOf) ∧
    (∀ (pre mid post : List String) (ql t : String),
      emittedQuestionOf ql = some t →
      (∀ l ∈ mid, isQuestionLine l = false ∧ isAnswerLine l = false) →
      (post = [] ∨ ∃ l₂ rest, post = l₂ :: rest ∧ isQuestionLine l₂ = true) →
      (parseTranscriptLines (pre ++ (ql :: (mid ++ post)))).get?
          ((pre.filterMap emittedQuestionOf).length) = some ⟨t, ""⟩) := by
  constructor
  · intro t
    unfold parse_transcript_qa_pairs parseTranscriptLines
    rw [flushPending_map, parseFold_question_invariant]
    simp [pendList, qTruthy]
  · exact parseLines_unanswered_question

/-- C8 (counterexample): a transcript whose first line is the bare
marker `AI:` has two question-marker lines but the parser emits only
one pair, refuting "exactly one pair for every line starting with
AI:/AGENT:/INTERVIEWER:". -/
theorem C8_bare_marker_line_counterexample :
    (parse_transcript_qa_pairs "AI:\nAI: What is X?\nUSER: Yes").length = 1 ∧
    (splitLines "AI:\nAI: What is X?\nUSER: Yes").countP
      (fun l => isQuestionLine l) = 2 := by
  exact ⟨by decide, by decide⟩

/-- C8 witness: the amended statement applied to the spec's example
transcript and to a concrete unanswered mid-transcript question. -/
theorem C8_parser_one_pair_per_question_line_witness :
    (parse_transcript_qa_pairs "AI: Hello, ready?\nUSER: \nAI: What is X?").map
      (fun p => p.question) = ["Hello, ready?", "What is X?"] ∧
    (parseTranscriptLines (["AI: Q one", "USER: ans one"] ++
        ("AI: Q two" :: (["stray text"] ++ ["AI: Q three"])))).get? 1 =
      some ⟨"Q two", ""⟩ := by
  constructor
  · rw [C8_parser_one_pair_per_question_line.1 "AI: Hello, ready?\nUSER: \nAI: What is X?"]
    decide
  · have h := C8_parser_one_pair_per_question_line.2 ["AI: Q one", "USER: ans one"]
      ["stray text"] ["AI: Q three"] "AI: Q two" "Q two" (by decide) (by decide)
      (Or.inr ⟨"AI: Q three", [], rfl, by decide⟩)
    have hi : ((["AI: Q one", "USER: ans one"].filterMap emittedQuestionOf).length) = 1 := by
      decide
    rw [hi] at h
    exact h

/-- Banker's rounding never exceeds the value by more than one half. -/
theorem pyRound_le (q : ℚ) : (pyRound q : ℚ) ≤ q + 1/2 := by
  unfold pyRound
  dsimp only []
  have hfl : (⌊q⌋ : ℚ) ≤ q := Int.floor_le q
  split
  · linarith
  · split
    · rename_i hlt
      push_cast
      linarith
    · split
      · linarith
      · rename_i hnlt hngt _
        push_cast
        linarith

/-- Banker's rounding of a non-negative value is non-negative. -/
theorem pyRound_nonneg (q : ℚ) (h : 0 ≤ q) : 0 ≤ pyRound q := by
  unfold pyRound
  dsimp only []
  have hfl : 0 ≤ ⌊q⌋ := Int.le_floor.mpr (by exact_mod_cast h)
  split
  · exact hfl
  · split
    · omega
    · split
      · exact hfl
      · omega

/-- The per-category rounded allocation is at most the exact
proportional share plus one half. -/
theorem roundedAllocation_le (pct total : ℕ) :
    (roundedAllocation pct total : ℚ) ≤ (pct : ℚ) / 100 * total + 1/2 := by
  unfold roundedAllocation
  split
  · have hx : (0 : ℚ) ≤ (pct : ℚ) / 100 * total := by positivity
    have h0 := pyRound_nonneg _ hx
    have h1 := pyRound_le ((pct : ℚ) / 100 * total)
    have hcast : (((pyRound ((pct : ℚ) / 100 * total)).toNat : ℕ) : ℚ) =
        ((pyRound ((pct : ℚ) / 100 * total) : ℤ) : ℚ) := by
      exact_mod_cast congrArg (Int.cast : ℤ → ℚ) (Int.toNat_of_nonneg h0)
    rw [hcast]
    exact h1
  · rename_i hn
    have : pct = 0 := by omega
    subst this
    push_cast
    norm_num

/-- When the four percentages sum to at most 100, the initial rounded
allocation overshoots the requested total by at most 2. -/
theorem totalAllocated_le (ec : EvaluationCriteria) (total : ℕ)
    (hsum : ec.screening_percentage + ec.domain_percentage +
      ec.behavioral_attitude_percentage + ec.communication_percentage ≤ 100) :
    roundedAllocation ec.screening_percentage total +
      roundedAllocation ec.domain_percentage total +
      roundedAllocation ec.behavioral_attitude_percentage total +
      roundedAllocation ec.communication_percentage total ≤ total + 2 := by
  have h1 := roundedAllocation_le ec.screening_percentage total
  have h2 := roundedAllocation_le ec.domain_percentage total
  have h3 := roundedAllocation_le ec.behavioral_attitude_percentage total
  have h4 := roundedAllocation_le ec.communication_percentage total
  have hsumq : ((ec.screening_percentage : ℚ) + ec.domain_percentage +
      ec.behavioral_attitude_percentage + ec.communication_percentage) ≤ 100 := by
    exact_mod_cast hsum
  have htotq : (0 : ℚ) ≤ (total : ℚ) := by positivity
  have hmul : ((ec.screening_percentage : ℚ) + ec.domain_percentage +
      ec.behavioral_attitude_percentage + ec.communication_percentage) * total ≤
      100 * total := mul_le_mul_of_nonneg_right hsumq htotq
  have hq : ((roundedAllocation ec.screening_percentage total +
      roundedAllocation ec.domain_percentage total +
      roundedAllocation ec.behavioral_attitude_percentage total +
      roundedAllocation ec.communication_percentage total : ℕ) : ℚ) ≤ (total : ℚ) + 2 := by
    push_cast
    simp only [div_mul_eq_mul_div] at h1 h2 h3 h4
    linarith
  exact_mod_cast hq

/-- Percentage accessor by category. -/
def EvaluationCriteria.pct (ec : EvaluationCriteria) : QCategory → ℕ
  | .screening => ec.screening_percentage
  | .domain => ec.domain_percentage
  | .behavioral => ec.behavioral_attitude_percentage
  | .communication => ec.communication_percentage

/-- A guarded decrement of a positive count lowers the total by one and
that category's count by one, leaving the others unchanged. -/
theorem dec_sum_get (d : QuestionDistribution) (c : QCategory) (h : 0 < d.get c) :
    (d.dec c).sum = d.sum - 1 ∧ (d.dec c).get c = d.get c - 1 ∧
      ∀ c' ≠ c, (d.dec c).get c' = d.get c' := by
  refine ⟨?_, ?_, ?_⟩
  · cases c
    all_goals
      simp only [QuestionDistribution.get] at h
      simp only [QuestionDistribution.dec, QuestionDistribution.sum, if_pos h]
      try simp
      omega
  · cases c
    all_goals
      simp only [QuestionDistribution.get] at h
      simp only [QuestionDistribution.dec, QuestionDistribution.get, if_pos h]
  · intro c' hc'
    cases c <;> cases c' <;>
      first
        | exact absurd rfl hc'
        | (simp only [QuestionDistribution.dec, QuestionDistribution.get]
           split <;> (try simp) <;> (try omega))

/-- The guarded decrement never increases a count. -/
theorem dec_get_le (d : QuestionDistribution) (c c' : QCategory) :
    (d.dec c).get c' ≤ d.get c' := by
  cases c <;> cases c' <;>
    (simp only [QuestionDistribution.dec, QuestionDistribution.get]
     split <;> (try simp) <;> (try omega))

/-- Increment raises the total by one and leaves other categories
unchanged. -/
theorem inc_sum_get (d : QuestionDistribution) (c : QCategory) :
    (d.inc c).sum = d.sum + 1 ∧ ∀ c' ≠ c, (d.inc c).get c' = d.get c' := by
  constructor
  · cases c <;>
      (simp only [QuestionDistribution.inc, QuestionDistribution.sum]
       omega)
  · intro c' hc'
    cases c <;> cases c' <;>
      first
        | exact absurd rfl hc'
        | simp [QuestionDistribution.inc, QuestionDistribution.get]

/-- Membership in one optional singleton segment of a candidate list. -/
theorem mem_optional_singleton (c : QCategory) (n : ℕ) (p : QCategory × ℕ)
    (hp : p ∈ (if 0 < n then [(c, n)] else [])) : p = (c, n) ∧ 0 < n := by
  split at hp
  · simp at hp
    exact ⟨hp, by assumption⟩
  · cases hp

/-- Every reduce candidate records a positive count equal to the
distribution's current count for its category. -/
theorem reduceCandidates_mem (d : QuestionDistribution) :
    ∀ p ∈ reduceCandidates d, 0 < p.2 ∧ d.get p.1 = p.2 := by
  intro p hp
  unfold reduceCandidates at hp
  rcases List.mem_append.mp hp with hp' | hc
  · rcases List.mem_append.mp hp' with hp'' | hb
    · rcases List.mem_append.mp hp'' with hs | hd
      · obtain ⟨rfl, hpos⟩ := mem_optional_singleton _ _ _ hs
        exact ⟨hpos, rfl⟩
      · obtain ⟨rfl, hpos⟩ := mem_optional_singleton _ _ _ hd
        exact ⟨hpos, rfl⟩
    · obtain ⟨rfl, hpos⟩ := mem_optional_singleton _ _ _ hb
      exact ⟨hpos, rfl⟩
  · obtain ⟨rfl, hpos⟩ := mem_optional_singleton _ _ _ hc
    exact ⟨hpos, rfl⟩

/-- The reduce-candidate counts sum to the distribution total. -/
theorem reduceCandidates_snd_sum (d : QuestionDistribution) :
    ((reduceCandidates d).map Prod.snd).sum = d.sum := by
  have hseg : ∀ (c : QCategory) (n : ℕ),
      (((if 0 < n then [(c, n)] else []) : List (QCategory × ℕ)).map Prod.snd).sum = n := by
    intro c n
    split
    · simp
    · simp; omega
  unfold reduceCandidates QuestionDistribution.sum
  simp only [List.map_append, List.sum_append, hseg]

/-- The reduce-candidate categories are distinct. -/
theorem reduceCandidates_keys_nodup (d : QuestionDistribution) :
    ((reduceCandidates d).map Prod.fst).Nodup := by
  have hsub : List.Sublist ((reduceCandidates d).map Prod.fst)
      [QCategory.screening, QCategory.domain, QCategory.behavioral,
        QCategory.communication] := by
    unfold reduceCandidates
    simp only [List.map_append]
    have hseg : ∀ (c : QCategory) (n : ℕ),
        List.Sublist (((if 0 < n then [(c, n)] else []) : List (QCategory × ℕ)).map Prod.fst)
          [c] := by
      intro c n
      split
      · simp
      · simp
    have h1 := hseg QCategory.screening d.screening
    have h2 := hseg QCategory.domain d.domain
    have h3 := hseg QCategory.behavioral d.behavioral
    have h4 := hseg QCategory.communication d.communication
    exact ((h1.append h2).append h3).append h4
  exact hsub.nodup (by decide)

/-- An empty reduce-candidate list forces an all-zero distribution. -/
theorem reduceCandidates_eq_nil (d : QuestionDistribution)
    (h : reduceCandidates d = []) : d.sum = 0 := by
  unfold reduceCandidates at h
  split_ifs at h <;> simp_all [QuestionDistribution.sum] <;> omega

/-- Every add candidate records a positive percentage equal to its
category's percentage. -/
theorem addCandidates_mem (ec : EvaluationCriteria) :
    ∀ p ∈ addCandidates ec, 0 < p.2 ∧ ec.pct p.1 = p.2 := by
  intro p hp
  unfold addCandidates at hp
  rcases List.mem_append.mp hp with hp' | hc
  · rcases List.mem_append.mp hp' with hp'' | hb
    · rcases List.mem_append.mp hp'' with hs | hd
      · obtain ⟨rfl, hpos⟩ := mem_optional_singleton _ _ _ hs
        exact ⟨hpos, rfl⟩
      · obtain ⟨rfl, hpos⟩ := mem_optional_singleton _ _ _ hd
        exact ⟨hpos, rfl⟩
    · obtain ⟨rfl, hpos⟩ := mem_optional_singleton _ _ _ hb
      exact ⟨hpos, rfl⟩
  · obtain ⟨rfl, hpos⟩ := mem_optional_singleton _ _ _ hc
    exact ⟨hpos, rfl⟩

/-- The add-candidate list is non-empty whenever one of the first three
percentages is positive. -/
theorem addCandidates_ne_nil (ec : EvaluationCriteria)
    (h : 0 < ec.screening_percentage ∨ 0 < ec.domain_percentage ∨
      0 < ec.behavioral_attitude_percentage) : addCandidates ec ≠ [] := by
  unfold addCandidates
  intro hnil
  split_ifs at hnil <;> simp_all <;> omega

/-- Stable insertion is a permutation of consing. -/
theorem insertKeyDesc_perm (x : QCategory × ℕ) :
    ∀ l : List (QCategory × ℕ), (insertKeyDesc x l).Perm (x :: l) := by
  intro l
  induction l with
  | nil => exact List.Perm.refl _
  | cons y ys ih =>
    unfold insertKeyDesc
    split
    · exact ((ih.cons y).trans (List.Perm.swap x y ys))
    · exact List.Perm.refl _

/-- The stable descending sort is a permutation of its input. -/
theorem sortKeyDesc_perm (l : List (QCategory × ℕ)) : (sortKeyDesc l).Perm l := by
  induction l with
  | nil => exact List.Perm.refl _
  | cons x xs ih =>
    unfold sortKeyDesc
    rw [List.foldr_cons]
    exact (insertKeyDesc_perm x _).trans (ih.cons x)

/-- The addition loop adds exactly one question per iteration when the
candidate list is non-empty. -/
theorem addLoop_sum (sorted : List (QCategory × ℕ)) (hne : sorted ≠ []) :
    ∀ (r : ℕ) (d : QuestionDistribution), (addLoop sorted r d).sum = d.sum + r := by
  have hlen : 0 < sorted.length := List.length_pos.mpr hne
  intro r
  induction r with
  | zero => intro d; rfl
  | succ n ih =>
    intro d
    unfold addLoop at ih ⊢
    simp only [List.range_succ, List.foldl_append, List.foldl_cons, List.foldl_nil]
    have hidx : n % sorted.length < sorted.length := Nat.mod_lt _ hlen
    rw [List.get?_eq_get hidx]
    rw [(inc_sum_get _ _).1, ih d]
    omega

/-- The addition loop never touches a category absent from the
candidate list. -/
theorem addLoop_get_not_mem (sorted : List (QCategory × ℕ)) (c : QCategory)
    (hc : ∀ p ∈ sorted, p.1 ≠ c) :
    ∀ (r : ℕ) (d : QuestionDistribution), (addLoop sorted r d).get c = d.get c := by
  intro r
  induction r with
  | zero => intro d; rfl
  | succ n ih =>
    intro d
    unfold addLoop at ih ⊢
    simp only [List.range_succ, List.foldl_append, List.foldl_cons, List.foldl_nil]
    cases hget : sorted.get? (n % sorted.length) with
    | none =>
      exact ih d
    | some p =>
      dsimp only []
      rw [(inc_sum_get _ _).2 c (Ne.symm (hc p (List.get?_mem hget)))]
      exact ih d

/-- The reduction loop never increases any category's count. -/
theorem reduceLoop_get_le (sorted : List (QCategory × ℕ)) (c : QCategory) :
    ∀ (e : ℕ) (d : QuestionDistribution), (reduceLoop sorted e d).get c ≤ d.get c := by
  intro e
  induction e with
  | zero => intro d; exact Nat.le_refl _
  | succ n ih =>
    intro d
    unfold reduceLoop at ih ⊢
    simp only [List.range_succ, List.foldl_append, List.foldl_cons, List.foldl_nil]
    cases hget : sorted.get? (n % sorted.length) with
    | none =>
      exact ih d
    | some p =>
      exact (dec_get_le _ _ _).trans (ih d)

/-- The reduction loop removes exactly the excess when the initial
allocation overshoots the total by at most 2 (which the amended C1
hypotheses guarantee): one or two guarded decrements of distinct (or a
sufficiently large single) positive candidates. -/
theorem reduceLoop_sum_exact (d0 : QuestionDistribution) (total : ℕ)
    (htot : 1 ≤ total) (hgt : total < d0.sum) (hle : d0.sum ≤ total + 2) :
    (reduceLoop (sortKeyDesc (reduceCandidates d0)) (d0.sum - total) d0).sum = total := by
  have perm := sortKeyDesc_perm (reduceCandidates d0)
  have hmem : ∀ p ∈ sortKeyDesc (reduceCandidates d0), 0 < p.2 ∧ d0.get p.1 = p.2 :=
    fun p hp => reduceCandidates_mem d0 p (perm.mem_iff.mp hp)
  have hkeys : ((sortKeyDesc (reduceCandidates d0)).map Prod.fst).Nodup :=
    (perm.map Prod.fst).nodup_iff.mpr (reduceCandidates_keys_nodup d0)
  have hSsum : ((sortKeyDesc (reduceCandidates d0)).map Prod.snd).sum = d0.sum := by
    rw [(perm.map Prod.snd).sum_eq, reduceCandidates_snd_sum]
  have hSne : sortKeyDesc (reduceCandidates d0) ≠ [] := by
    intro hnil
    have hLnil : reduceCandidates d0 = [] := List.eq_nil_of_length_eq_zero
      (by rw [← perm.length_eq, hnil]; rfl)
    have := reduceCandidates_eq_nil d0 hLnil
    omega
  obtain ⟨p0, S', hS⟩ := List.exists_cons_of_ne_nil hSne
  have hp0 := hmem p0 (by rw [hS]; exact List.mem_cons_self _ _)
  have hE : d0.sum - total = 1 ∨ d0.sum - total = 2 := by omega
  rcases hE with hE | hE
  · -- one removal
    rw [hE]
    unfold reduceLoop
    simp only [show List.range 1 = [0] from rfl, List.foldl_cons, List.foldl_nil]
    rw [hS]
    simp only [Nat.zero_mod, List.get?_cons_zero]
    rw [(dec_sum_get d0 p0.1 (by omega)).1]
    omega
  · -- two removals
    rw [hE]
    unfold reduceLoop
    simp only [show List.range 2 = [0, 1] from rfl, List.foldl_cons, List.foldl_nil]
    rw [hS]
    simp only [Nat.zero_mod, List.get?_cons_zero]
    cases S' with
    | nil =>
      -- single candidate holding the whole total
      have hone : p0.2 = d0.sum := by
        rw [hS] at hSsum
        simpa using hSsum
      have h1 := dec_sum_get d0 p0.1 (by omega)
      simp only [List.length_cons, List.length_nil, Nat.mod_self, List.get?_cons_zero]
      rw [(dec_sum_get (d0.dec p0.1) p0.1 (by rw [h1.2.1]; omega)).1, h1.1]
      omega
    | cons p1 S'' =>
      have hp1 := hmem p1 (by rw [hS]; exact List.mem_cons_of_mem _ (List.mem_cons_self _ _))
      have hlen2 : (1 : ℕ) % (p0 :: p1 :: S'').length = 1 :=
        Nat.mod_eq_of_lt (by simp only [List.length_cons]; omega)
      rw [hlen2]
      simp only [List.get?_cons_succ, List.get?_cons_zero]
      have hne01 : p1.1 ≠ p0.1 := by
        rw [hS] at hkeys
        simp only [List.map_cons, List.nodup_cons] at hkeys
        intro he
        exact hkeys.1 (by rw [he]; exact List.mem_cons_self _ _)
      have h1 := dec_sum_get d0 p0.1 (by omega)
      have hget1 : (d0.dec p0.1).get p1.1 = d0.get p1.1 := h1.2.2 p1.1 hne01
      rw [(dec_sum_get (d0.dec p0.1) p1.1 (by rw [hget1]; omega)).1, h1.1]
      omega
set_option maxHeartbeats 1000000

/-- A category starting at zero stays at zero through the reduction
loop. -/
theorem reduceLoop_get_zero (sorted : List (QCategory × ℕ)) (e : ℕ)
    (d : QuestionDistribution) (c : QCategory) (h : d.get c = 0) :
    (reduceLoop sorted e d).get c = 0 :=
  Nat.le_zero.mp (h ▸ reduceLoop_get_le sorted c e d)

/-- A zero-percentage category is never touched by the addition loop. -/
theorem addLoop_pct_zero (ec : EvaluationCriteria) (c : QCategory)
    (h0 : ec.pct c = 0) (r : ℕ) (d : QuestionDistribution) (h : d.get c = 0) :
    (addLoop (sortKeyDesc (addCandidates ec)) r d).get c = 0 := by
  have hc : ∀ p ∈ sortKeyDesc (addCandidates ec), p.1 ≠ c := by
    intro p hp he
    have hm := addCandidates_mem ec p ((sortKeyDesc_perm _).mem_iff.mp hp)
    rw [he] at hm
    omega
  rw [addLoop_get_not_mem _ _ hc, h]

/-- C1 (amended): when the four percentages sum to at most 100 and at
least one of the screening, domain, or behavioral percentages is
positive, `_distribute_questions` returns counts (naturals, hence
non-negative) that sum exactly to the requested total, with every
zero-percentage category receiving 0. -/
theorem C1_distribute_questions_amended (ec : EvaluationCriteria) (total : ℕ)
    (htot : 1 ≤ total)
    (hsum : ec.screening_percentage + ec.domain_percentage +
      ec.behavioral_attitude_percentage + ec.communication_percentage ≤ 100)
    (hpos : 0 < ec.screening_percentage ∨ 0 < ec.domain_percentage ∨
      0 < ec.behavioral_attitude_percentage) :
    (distribute_questions ec total).sum = total ∧
    (ec.screening_percentage = 0 → (distribute_questions ec total).screening = 0) ∧
    (ec.domain_percentage = 0 → (distribute_questions ec total).domain = 0) ∧
    (ec.behavioral_attitude_percentage = 0 → (distribute_questions ec total).behavioral = 0) ∧
    (ec.communication_percentage = 0 → (distribute_questions ec total).communication = 0) := by
  have halloc := totalAllocated_le ec total hsum
  have hra0 : roundedAllocation 0 total = 0 := rfl
  unfold distribute_questions
  dsimp only []
  by_cases hz : roundedAllocation ec.screening_percentage total +
      roundedAllocation ec.domain_percentage total +
      roundedAllocation ec.behavioral_attitude_percentage total +
      roundedAllocation ec.communication_percentage total = 0
  · rw [hz]
    simp only [if_pos (Eq.refl (0 : ℕ)), lt_irrefl, if_neg (lt_irrefl total), if_false,
      reduceIte]
    by_cases h1 : 0 < ec.screening_percentage
    · rw [if_pos h1]
      refine ⟨by simp [QuestionDistribution.sum], fun h0 => by omega, fun _ => rfl,
        fun _ => rfl, fun _ => rfl⟩
    · rw [if_neg h1]
      by_cases h2 : 0 < ec.domain_percentage
      · rw [if_pos h2]
        refine ⟨by simp [QuestionDistribution.sum], fun _ => rfl, fun h0 => by omega,
          fun _ => rfl, fun _ => rfl⟩
      · rw [if_neg h2]
        by_cases h3 : 0 < ec.behavioral_attitude_percentage
        · rw [if_pos h3]
          refine ⟨by simp [QuestionDistribution.sum], fun _ => rfl, fun _ => rfl,
            fun h0 => by omega, fun _ => rfl⟩
        · omega
  · simp only [if_neg hz]
    by_cases hgt : total < roundedAllocation ec.screening_percentage total +
        roundedAllocation ec.domain_percentage total +
        roundedAllocation ec.behavioral_attitude_percentage total +
        roundedAllocation ec.communication_percentage total
    · simp only [if_pos hgt]
      refine ⟨reduceLoop_sum_exact ⟨_, _, _, _⟩ total htot hgt halloc, ?_, ?_, ?_, ?_⟩
      · intro h0
        exact reduceLoop_get_zero _ _ _ QCategory.screening (by rw [h0]; rfl) 
      · intro h0
        exact reduceLoop_get_zero _ _ _ QCategory.domain (by rw [h0]; rfl)
      · intro h0
        exact reduceLoop_get_zero _ _ _ QCategory.behavioral (by rw [h0]; rfl)
      · intro h0
        exact reduceLoop_get_zero _ _ _ QCategory.communication (by rw [h0]; rfl)
    · simp only [if_neg hgt]
      by_cases hlt : roundedAllocation ec.screening_percentage total +
          roundedAllocation ec.domain_percentage total +
          roundedAllocation ec.behavioral_attitude_percentage total +
          roundedAllocation ec.communication_percentage total < total
      · simp only [if_pos hlt]
        have hAne : sortKeyDesc (addCandidates ec) ≠ [] := by
          intro hnil
          have hnil2 : addCandidates ec = [] := List.eq_nil_of_length_eq_zero
            (by rw [← (sortKeyDesc_perm _).length_eq, hnil]; rfl)
          exact addCandidates_ne_nil ec hpos hnil2
        refine ⟨?_, ?_, ?_, ?_, ?_⟩
        · rw [addLoop_sum _ hAne]
          simp only [QuestionDistribution.sum]
          omega
        · intro h0
          exact addLoop_pct_zero ec QCategory.screening h0 _ _ (by rw [h0]; rfl)
        · intro h0
          exact addLoop_pct_zero ec QCategory.domain h0 _ _ (by rw [h0]; rfl)
        · intro h0
          exact addLoop_pct_zero ec QCategory.behavioral h0 _ _ (by rw [h0]; rfl)
        · intro h0
          exact addLoop_pct_zero ec QCategory.communication h0 _ _ (by rw [h0]; rfl)
      · simp only [if_neg hlt]
        refine ⟨?_, ?_, ?_, ?_, ?_⟩
        · simp only [QuestionDistribution.sum]
          omega
        · intro h0
          show roundedAllocation ec.screening_percentage total = 0
          rw [h0]
          rfl
        · intro h0
          show roundedAllocation ec.domain_percentage total = 0
          rw [h0]
          rfl
        · intro h0
          show roundedAllocation ec.behavioral_attitude_percentage total = 0
          rw [h0]
          rfl
        · intro h0
          show roundedAllocation ec.communication_percentage total = 0
          rw [h0]
          rfl

/-- C1 (counterexample): the claim fails as stated.  With all four
percentages 0, the emergency fallback gives screening (percentage 0)
all 7 questions; with only communication positive but its share rounded
to 0, the fallback again gives screening (percentage 0) the question;
and with percentages summing over 100 (here 100+100+20), the reduction
loop revisits an exhausted candidate and the counts sum to 6 instead of
the requested 5. -/
theorem C1_distribute_questions_counterexample :
    distribute_questions ⟨0, 0, 0, 0⟩ 7 = ⟨7, 0, 0, 0⟩ ∧
    distribute_questions ⟨0, 0, 0, 40⟩ 1 = ⟨1, 0, 0, 0⟩ ∧
    (distribute_questions ⟨100, 100, 20, 0⟩ 5).sum = 6 := by
  exact ⟨by decide, by decide, by decide⟩

/-- C1 witness: the amended statement at the spec's example criteria
(30/30/20/20 over 7 questions) and at a criteria set with two
zero-percentage categories. -/
theorem C1_distribute_questions_amended_witness :
    (distribute_questions ⟨30, 30, 20, 20⟩ 7).sum = 7 ∧
    (distribute_questions ⟨50, 50, 0, 0⟩ 7).behavioral = 0 ∧
    (distribute_questions ⟨50, 50, 0, 0⟩ 7).communication = 0 :=
  ⟨(C1_distribute_questions_amended ⟨30, 30, 20, 20⟩ 7 (by decide) (by decide)
      (Or.inl (by decide))).1,
   (C1_distribute_questions_amended ⟨50, 50, 0, 0⟩ 7 (by decide) (by decide)
      (Or.inl (by decide))).2.2.2.1 rfl,
   (C1_distribute_questions_amended ⟨50, 50, 0, 0⟩ 7 (by decide) (by decide)
      (Or.inl (by decide))).2.2.2.2 rfl⟩
